import Mathlib

/-!
Verification development for the mathjslab expression evaluator
(`src/evaluator.ts`).  The evaluator, its name/local/function tables, the
assignment protocol, the `end` / `:` resolution mechanism and the two
unparsers are embedded shallowly.  JavaScript objects (AST nodes as well as
numeric values and tensors, which the source treats uniformly as objects
carrying `type`, `parent` and `index` properties) are modelled as entries of
an explicit heap; object references are heap indices, and the evaluator's
property mutations (`tree.parent = ...`, `tree.index = ...`) become heap
updates.  External collaborators that are not part of this repository
(the decimal arithmetic library, the MultiArray engine, the parser) are
modelled from the spec where a claim needs them; each such definition says so
in its doc comment.
-/

namespace MathJSLab

/-- Kind tag distinguishing the classes of heap objects: AST node,
ComplexDecimal scalar, MultiArray tensor, CharString. -/
inductive ObjCls where
  | node
  | num
  | mat
  | chstr
  deriving DecidableEq, Repr

/-- Value of a JavaScript `type` property: the source stores strings on AST
nodes and numeric number-class tags on ComplexDecimal / MultiArray values
(the evaluator compares `value.type === ComplexDecimal.numberClass.logical`
under an `isTensor` guard, so tensors carry numeric tags as well). -/
inductive TTag where
  | s (v : String)
  | n (v : Nat)
  deriving DecidableEq, Repr

/-- JavaScript reference: `undefined`, `null`, or a reference to a heap
object.  The source distinguishes `undefined` (property never set) from
`null` (root marker installed by `Evaluate`). -/
inductive JRef where
  | undef
  | jnull
  | ref (i : Nat)
  deriving DecidableEq, Repr

/-- Modelled from the spec: scalar payload of the external arbitrary
precision decimal library.  Only integer arithmetic is required by the
claims; the special constants are kept symbolic. -/
inductive Decim where
  | int (z : Int)
  | dpi
  | de
  | dinf
  | dnan
  deriving DecidableEq, Repr

/-- Modelled from the spec: addition of the external decimal library,
defined on the integer fragment the claims exercise. -/
def Decim.add : Decim → Decim → Decim
  | .int a, .int b => .int (a + b)
  | _, _ => .dnan

/-- Modelled from the spec: subtraction of the external decimal library. -/
def Decim.sub : Decim → Decim → Decim
  | .int a, .int b => .int (a - b)
  | _, _ => .dnan

/-- Number-class tags of ComplexDecimal (`ComplexDecimal.numberClass`).
Modelled from the spec: the exact numeric values are private to the external
numeric library; only `logical` is compared against by the evaluator. -/
def numberClassLogical : Nat := 0

/-- Number-class tag for real values (modelled from the spec). -/
def numberClassReal : Nat := 1

/-- Number-class tag for complex values (modelled from the spec). -/
def numberClassComplex : Nat := 2

/-- Error channel: JavaScript `EvalError`, `SyntaxError` and `TypeError`
objects thrown by the source, plus two model artifacts: `externErr` marks a
call into external code that the claims never exercise, and `fuelErr` marks
exhaustion of the step budget of the fuel-indexed evaluator. -/
inductive Err where
  | evalErr (msg : String)
  | syntaxErr (msg : String)
  | typeErr (msg : String)
  | externErr (msg : String)
  | fuelErr
  deriving DecidableEq, Repr

/-- Heap object.  One record covers every object class the evaluator
manipulates (AST nodes, ComplexDecimal scalars, MultiArray tensors,
CharStrings, RETLIST wrappers); unused fields keep their defaults, exactly
as absent properties of a JavaScript object.  `array` holds a MultiArray's
rows as references into the heap, `dim` its dimensions, `re`/`im`/`cls`
a ComplexDecimal's payload and number class, `retSrc` the node captured by
the return-list selector built in the assignment case. -/
structure Obj where
  tag : TTag := .s "INVALID"
  ocls : ObjCls := .node
  parent : JRef := .undef
  idx : Option Nat := none
  id : String := ""
  left : Option Nat := none
  right : Option Nat := none
  exprF : Option Nat := none
  argsF : List Nat := []
  listF : List Nat := []
  startF : Option Nat := none
  stopF : Option Nat := none
  strideF : Option Nat := none
  re : Decim := .int 0
  im : Decim := .int 0
  cls : Nat := 0
  dim : List Nat := []
  array : List (List Nat) := []
  sval : String := ""
  retSrc : Option Nat := none
  deriving DecidableEq, Repr

instance : Inhabited Obj := ⟨{}⟩

/-- Name-table entry: formal parameters (references to NAME nodes) and the
stored expression or value (a heap reference), as in `TNameTableEntry`. -/
structure NTEntry where
  args : List Nat := []
  expr : Nat
  deriving DecidableEq, Repr

/-- Base-function-table entry shape.  The implementation function itself is
external (built-in catalogs and caller-supplied extensions); the claims only
need the fields the dispatcher inspects: whether `mapper` is present, its
value, the selective-evaluation flags, and whether a custom math-markup
renderer is registered. -/
structure BFE where
  mapperDef : Bool := true
  mapper : Bool := false
  ev : List Bool := []
  hasML : Bool := false
  deriving DecidableEq, Repr

/-- Association-list lookup with JavaScript `Record` semantics (keys are
unique, first match wins). -/
def recFind {α : Type} : List (String × α) → String → Option α
  | [], _ => none
  | (k, v) :: rest, key => if k = key then some v else recFind rest key

/-- Association-list update: replace the binding if the key is present,
append it otherwise (JavaScript `table[key] = value`). -/
def recSet {α : Type} : List (String × α) → String → α → List (String × α)
  | [], key, v => [(key, v)]
  | (k, w) :: rest, key, v =>
    if k = key then (k, v) :: rest else (k, w) :: recSet rest key v

/-- Association-list deletion (JavaScript `delete table[key]`). -/
def recDel {α : Type} (t : List (String × α)) (key : String) : List (String × α) :=
  t.filter (fun p => p.1 ≠ key)

/-- Interpreter state: the object heap plus the table state of the
`Evaluator` class (`nameTable`, `readonlyNameTable`, `localTable`,
`baseFunctionTable`, command tables, alias table) and the exit status and
debug flag.  `nativeRefs` remembers the heap references of the constructor's
`nativeNameTable` objects and `consts` those of the external
`constantsTable`, so that `Restart` re-seeds the same objects. -/
structure St where
  heap : List Obj := []
  nameTable : List (String × NTEntry) := []
  readonlyNameTable : List String := []
  localTable : List (String × List (String × Nat)) := []
  baseFns : List (String × BFE) := []
  cmdWListNames : List String := []
  commandsT : List String := []
  aliasT : List (String × String) := []
  nativeRefs : List (String × Nat) := []
  consts : List (String × Nat) := []
  exitStatus : Int := 0
  debug : Bool := false
  deriving DecidableEq, Repr

/-- Read a heap object (JavaScript property access through a reference). -/
def hGet (st : St) (i : Nat) : Obj := st.heap.getD i {}

/-- Overwrite a heap object. -/
def hSet (st : St) (i : Nat) (o : Obj) : St := { st with heap := st.heap.set i o }

/-- Update a heap object in place. -/
def hMod (st : St) (i : Nat) (f : Obj → Obj) : St :=
  hSet st i (f (hGet st i))

/-- Allocate a fresh heap object, returning its reference. -/
def halloc (st : St) (o : Obj) : Nat × St :=
  (st.heap.length, { st with heap := st.heap ++ [o] })

/-- Set the `parent` property of an object. -/
def setParent (st : St) (i : Nat) (p : JRef) : St :=
  hMod st i (fun o => { o with parent := p })

/-- Set the `index` property of an object. -/
def setIdx (st : St) (i : Nat) (n : Nat) : St :=
  hMod st i (fun o => { o with idx := some n })

/-- ComplexDecimal.isThis: the object is a ComplexDecimal scalar. -/
def isNumberO (o : Obj) : Bool := o.ocls = .num

/-- CharString.isThis: the object is a CharString. -/
def isStringO (o : Obj) : Bool := o.ocls = .chstr

/-- MultiArray.isThis: the object is a MultiArray tensor. -/
def isTensorO (o : Obj) : Bool := o.ocls = .mat

/-- Build a ComplexDecimal object with real part `d` (the model's
`ComplexDecimal.newThis` / `nodeNumber` for literals). -/
def mkNum (d : Decim) : Obj :=
  { tag := .n numberClassReal, ocls := .num, re := d, im := .int 0, cls := numberClassReal }

/-- ComplexDecimal.one(). -/
def cdOne : Obj := mkNum (.int 1)

/-- Modelled from the spec: `MultiArray.linearLength`, the tensor's total
number of elements (`length = product(dims)`). -/
def linearLength (o : Obj) : Nat := o.dim.foldl (· * ·) 1

/-- Modelled from the spec: `MultiArray.getDimension`, the size of one
specific dimension of a tensor (trailing dimensions beyond the rank count
as 1, MATLAB style). -/
def getDimension (o : Obj) (i : Nat) : Nat := o.dim.getD i 1

/-- Zero scalar used when indexed assignment grows a tensor (spec:
"filling new cells with the numeric zero value"). -/
def zeroObj : Obj := mkNum (.int 0)

/-- Copy of an object's value payload with the advisory `parent`/`index`
caches cleared (used when elements are copied into a fresh tensor). -/
def payloadCopy (o : Obj) : Obj :=
  { o with parent := .undef, idx := none }

/-- Read a tensor's elements out of the heap as a grid of value payloads. -/
def readGrid (st : St) (m : Obj) : List (List Obj) :=
  m.array.map (fun row => row.map (fun r => payloadCopy (hGet st r)))

/-- Allocate every element of a payload grid, returning the reference grid. -/
def allocGrid (st : St) (g : List (List Obj)) : List (List Nat) × St :=
  match g with
  | [] => ([], st)
  | row :: rest =>
    let rowRefs := row.foldl (fun (acc : List Nat × St) o =>
      let (r, st') := halloc acc.2 o
      (acc.1 ++ [r], st')) ([], st)
    let (restRefs, st'') := allocGrid rowRefs.2 rest
    (rowRefs.1 :: restRefs, st'')

/-- Allocate a fresh MultiArray from a payload grid and explicit dimensions. -/
def allocTensor (st : St) (dims : List Nat) (g : List (List Obj)) (ncls : Nat) : Nat × St :=
  let (refs, st') := allocGrid st g
  halloc st' { tag := .n ncls, ocls := .mat, dim := dims, array := refs, cls := ncls }

/-- Pad a row with zero scalars up to `c` columns. -/
def padTo (row : List Obj) (c : Nat) : List Obj :=
  row ++ List.replicate (c - row.length) zeroObj

/-- Pad a payload grid with zero scalars up to `r` rows and `c` columns. -/
def gridPad (g : List (List Obj)) (r c : Nat) : List (List Obj) :=
  (g.map (padTo · c)) ++ List.replicate (r - g.length) (List.replicate c zeroObj)

/-- Write a payload at 0-based position (i, j) of a grid. -/
def gridPut (g : List (List Obj)) (i j : Nat) (v : Obj) : List (List Obj) :=
  g.set i ((g.getD i []).set j v)

/-- Column-major flattening of a grid (the storage order the source's
indexing formulas use, per the spec). -/
def colMajor {α : Type} (g : List (List α)) : List α :=
  ((List.range (g.headD []).length).map (fun j => g.filterMap (fun row => row.get? j))).flatten

/-- Evaluated subscript as a 1-based position: the subscript object must be
a ComplexDecimal whose real part is a positive integer. -/
def subNat (st : St) (r : Nat) : Option Nat :=
  let o := hGet st r
  if isNumberO o then
    match o.re with
    | .int z => if 1 ≤ z then some z.toNat else none
    | _ => none
  else none

/-- Modelled from the spec: `MultiArray.getItems`, element and range
indexing of a tensor.  One subscript indexes the column-major linearization
(1-based, out of range fails); two subscripts index row and column.  The
fragments the claims do not exercise (vector subscripts, more than two
subscripts) are marked external. -/
def getItems (st : St) (mRef : Nat) (id : String) (vals : List Nat) :
    St × Except Err Nat :=
  let m := hGet st mRef
  match vals.mapM (subNat st) with
  | none => (st, .error (.externErr "getItems: subscript form not modelled"))
  | some subs =>
    match subs with
    | [k] =>
      if k ≤ linearLength m then
        let r := m.dim.getD 0 1
        let row := (k - 1) % r
        let col := (k - 1) / r
        match (m.array.getD row []).get? col with
        | some eref =>
          let (c, st') := halloc st (payloadCopy (hGet st eref))
          (st', .ok c)
        | none => (st, .error (.evalErr ("index out of bound: " ++ id)))
      else (st, .error (.evalErr ("out of bound index " ++ id)))
    | [i, j] =>
      if i ≤ m.dim.getD 0 1 ∧ j ≤ m.dim.getD 1 1 then
        match (m.array.getD (i - 1) []).get? (j - 1) with
        | some eref =>
          let (c, st') := halloc st (payloadCopy (hGet st eref))
          (st', .ok c)
        | none => (st, .error (.evalErr ("index out of bound: " ++ id)))
      else (st, .error (.evalErr ("out of bound index " ++ id)))
    | _ => (st, .error (.externErr "getItems: subscript count not modelled"))

/-- Modelled from the spec: `MultiArray.getItemsLogical`, selection of the
elements at true positions of a logical mask, in column-major order,
yielding a row vector. -/
def getItemsLogical (st : St) (mRef : Nat) (id : String) (maskRef : Nat) :
    St × Except Err Nat :=
  let m := hGet st mRef
  let mask := hGet st maskRef
  let tElems := colMajor m.array
  let maskVals := (colMajor mask.array).map (fun r => (hGet st r).re)
  if maskVals.length ≤ tElems.length then
    let picked := (tElems.zip (maskVals ++ List.replicate
        (tElems.length - maskVals.length) (Decim.int 0))).filterMap
      (fun p => if p.2 = Decim.int 1 then some (payloadCopy (hGet st p.1)) else none)
    let (r, st') := allocTensor st [1, picked.length] [picked] numberClassReal
    (st', .ok r)
  else (st, .error (.evalErr ("logical index out of bound: " ++ id)))

/-- Scalar payload of a value used as the right-hand side of an indexed
assignment: a ComplexDecimal, or a 1-by-1 tensor (auto-demoted). -/
def scalarOf (st : St) (r : Nat) : Option Obj :=
  let o := hGet st r
  if isNumberO o then some (payloadCopy o)
  else if isTensorO o ∧ linearLength o = 1 then
    match (o.array.getD 0 []).get? 0 with
    | some e => some (payloadCopy (hGet st e))
    | none => none
  else none

/-- Modelled from the spec: `MultiArray.setItems`, indexed assignment into
the name table.  Writing beyond the current bounds grows the tensor,
filling the new cells with zero; a single linear subscript addresses the
column-major order and can only grow a vector.  Writing to an absent name
creates the tensor.  Fragments the claims do not exercise are external. -/
def setItems (st : St) (id : String) (vals : List Nat) (valRef : Nat) :
    St × Except Err Unit :=
  match scalarOf st valRef with
  | none => (st, .error (.externErr "setItems: non-scalar right-hand side not modelled"))
  | some v =>
    match vals.mapM (subNat st) with
    | none => (st, .error (.externErr "setItems: subscript form not modelled"))
    | some subs =>
      let build := fun (dims : List Nat) (g : List (List Obj)) (st0 : St) =>
        let (mref, st1) := allocTensor st0 dims g numberClassReal
        ({ st1 with nameTable := recSet st1.nameTable id { args := [], expr := mref } },
          Except.ok ())
      let fresh := fun (st0 : St) =>
        match subs with
        | [k] => build [1, k] (gridPut (gridPad [] 1 k) 0 (k - 1) v) st0
        | [i, j] => build [i, j] (gridPut (gridPad [] i j) (i - 1) (j - 1) v) st0
        | _ => (st0, Except.error (.externErr "setItems: subscript count not modelled"))
      match recFind st.nameTable id with
      | none => fresh st
      | some en =>
        if en.args ≠ [] then
          (st, .error (.externErr "setItems: target bound as a function"))
        else
          let target := hGet st en.expr
          let g0 : List (List Obj) :=
            if isNumberO target then [[payloadCopy target]]
            else readGrid st target
          let dims0 : List Nat :=
            if isNumberO target then [1, 1] else target.dim
          if ¬ (isNumberO target ∨ isTensorO target) then
            (st, .error (.externErr "setItems: target form not modelled"))
          else
            let r0 := dims0.getD 0 1
            let c0 := dims0.getD 1 1
            match subs with
            | [k] =>
              if k ≤ r0 * c0 then
                build dims0 (gridPut g0 ((k - 1) % r0) ((k - 1) / r0) v) st
              else if r0 = 1 then
                build [1, k] (gridPut (gridPad g0 1 k) 0 (k - 1) v) st
              else if c0 = 1 then
                build [k, 1] (gridPut (gridPad g0 k 1) (k - 1) 0 v) st
              else (st, .error (.evalErr ("out of bound index " ++ id)))
            | [i, j] =>
              let r1 := max i r0
              let c1 := max j c0
              build [r1, c1] (gridPut (gridPad g0 r1 c1) (i - 1) (j - 1) v) st
            | _ => (st, .error (.externErr "setItems: subscript count not modelled"))

/-- Modelled from the spec: `MultiArray.setItemsLogical`, assignment through
a logical mask; only broadcasting one scalar onto the selected positions is
required by the claims. -/
def setItemsLogical (st : St) (id : String) (maskLin : Nat) (valRef : Nat) :
    St × Except Err Unit :=
  match scalarOf st valRef, recFind st.nameTable id with
  | some v, some en =>
    if en.args ≠ [] then
      (st, .error (.externErr "setItemsLogical: target bound as a function"))
    else
      let target := hGet st en.expr
      if isTensorO target then
        let mask := (colMajor (hGet st maskLin).array).map (fun r => (hGet st r).re)
        let r0 := target.dim.getD 0 1
        let g0 := readGrid st target
        let write := fun (g : List (List Obj)) (k : Nat) =>
          gridPut g (k % r0) (k / r0) v
        let g1 := (List.range mask.length).foldl
          (fun g k => if mask.getD k (Decim.int 0) = Decim.int 1 then write g k else g) g0
        let (mref, st1) := allocTensor st target.dim g1 numberClassReal
        ({ st1 with nameTable := recSet st1.nameTable id { args := [], expr := mref } },
          .ok ())
      else (st, .error (.externErr "setItemsLogical: target form not modelled"))
  | _, _ => (st, .error (.externErr "setItemsLogical: case not modelled"))

/-- Modelled from the spec: `MultiArray.linearize`, column-major flattening
of a tensor to a row vector; non-tensor values pass through unchanged. -/
def linearize (st : St) (r : Nat) : Nat × St :=
  let o := hGet st r
  if isTensorO o then
    let flat := (colMajor o.array).map (fun e => payloadCopy (hGet st e))
    allocTensor st [1, flat.length] [flat] o.cls
  else (r, st)

/-- Modelled from the spec: `MultiArray.numberToMatrix` (`toTensor`),
wrapping a scalar as a 1-by-1 tensor; tensors pass through. -/
def toTensor (st : St) (r : Nat) : Nat × St :=
  let o := hGet st r
  if isNumberO o then
    allocTensor st [1, 1] [[payloadCopy o]] o.cls
  else (r, st)

/-- Modelled from the spec: `MultiArray.expandRange`, expansion of a range
to a row-vector tensor enumerating the arithmetic sequence (inclusive stop,
sign of the stride honored, empty tensor when no term exists).  Only
integer endpoints are required by the claims. -/
def expandRange (st : St) (startR stopR : Nat) (strideR : Option Nat) :
    St × Except Err Nat :=
  let sObj := hGet st startR
  let eObj := hGet st stopR
  match sObj.re, eObj.re, strideR.map (fun r => (hGet st r).re) with
  | .int a, .int b, none =>
    let n : Nat := (b - a + 1).toNat
    let vals := (List.range n).map (fun k => mkNum (.int (a + k)))
    let (r, st') := allocTensor st [1, n] [vals] numberClassReal
    (st', .ok r)
  | .int a, .int b, some (.int d) =>
    if d = 0 then
      let (r, st') := allocTensor st [1, 0] [[]] numberClassReal
      (st', .ok r)
    else
      let n : Nat := if d > 0 then ((b - a) / d + 1).toNat else ((a - b) / (-d) + 1).toNat
      let vals := (List.range n).map (fun k => mkNum (.int (a + k * d)))
      let (r, st') := allocTensor st [1, n] [vals] numberClassReal
      (st', .ok r)
  | _, _, _ => (st, .error (.externErr "expandRange: endpoints not modelled"))

/-- Modelled from the spec: `MultiArray.evaluate` (`evaluateTensor`).  The
spec states that an already-reduced tensor evaluates to itself; tensor
literals still containing unevaluated element nodes are outside the model. -/
def evaluateTensor (st : St) (mRef : Nat) : St × Except Err Nat :=
  let m := hGet st mRef
  if m.array.all (fun row => row.all (fun r =>
      isNumberO (hGet st r) || isStringO (hGet st r))) then
    (st, .ok mRef)
  else (st, .error (.externErr "evaluateTensor: unevaluated tensor literal"))

/-- Modelled from the spec: `Tensor.copy`, a value copy of a scalar or
tensor (tensors are value types). -/
def copyObj (st : St) (r : Nat) : St × Except Err Nat :=
  let o := hGet st r
  if isNumberO o then
    let (c, st') := halloc st (payloadCopy o)
    (st', .ok c)
  else if isTensorO o then
    let (c, st') := allocTensor st o.dim (readGrid st o) o.cls
    (st', .ok c)
  else (st, .error (.externErr "copy: value form not modelled"))

/-- Modelled from the spec: `Tensor.plus` / `Tensor.minus` of the external
numeric engine, on the scalar fragment the claims exercise (a tensor
argument is mapped elementwise against a scalar). -/
def tensorAddSub (st : St) (plus : Bool) (aRef bRef : Nat) : St × Except Err Nat :=
  let a := hGet st aRef
  let b := hGet st bRef
  let f := fun (x y : Decim) => if plus then x.add y else x.sub y
  if isNumberO a ∧ isNumberO b then
    let (c, st') := halloc st (mkNum (f a.re b.re))
    (st', .ok c)
  else if isTensorO a ∧ isNumberO b then
    let g := (readGrid st a).map (fun row => row.map
      (fun o => mkNum (f o.re b.re)))
    let (c, st') := allocTensor st a.dim g numberClassReal
    (st', .ok c)
  else (st, .error (.externErr "plus: operand forms not modelled"))

/-! AST node constructor methods of the `Evaluator` class.  The external
parser invokes these to build trees, so concrete programs in this file are
assembled through them; notably `nodeListFirst` / `nodeList` already link
each element's `parent` to the list node, exactly as the source does. -/

/-- Create a name node (`nodeName`). -/
def nodeName (st : St) (s : String) : Nat × St :=
  halloc st { tag := .s "NAME", id := s }

/-- Create a reserved node such as `ENDRANGE` or `:` (`nodeReserved`). -/
def nodeReserved (st : St) (s : String) : Nat × St :=
  halloc st { tag := .s s }

/-- Create a number literal node: the parser's `nodeNumber` produces a
ComplexDecimal object (external `ComplexDecimal.parse`, modelled from the
spec for integer literals). -/
def nodeNumber (st : St) (d : Decim) : Nat × St :=
  halloc st (mkNum d)

/-- Create a binary operation node (the two-operand cases of `nodeOp`). -/
def nodeOp (st : St) (op : String) (d1 d2 : Nat) : Nat × St :=
  halloc st { tag := .s op, left := some d1, right := some d2 }

/-- Create a right-operand unary operation node (the `'()'`, `'!'`, `'+_'`,
`'++_'`, ... cases of `nodeOp`). -/
def nodeOpR (st : St) (op : String) (d : Nat) : Nat × St :=
  halloc st { tag := .s op, right := some d }

/-- Create a left-operand unary operation node (the transpose and postfix
increment / decrement cases of `nodeOp`). -/
def nodeOpL (st : St) (op : String) (d : Nat) : Nat × St :=
  halloc st { tag := .s op, left := some d }

/-- Create a list node holding one first element, linking the element's
`parent` to the list (`nodeListFirst`); without an element, an empty list. -/
def nodeListFirst (st : St) (n : Option Nat) : Nat × St :=
  match n with
  | some e =>
    let (l, st') := halloc st { tag := .s "LIST", listF := [e] }
    (l, setParent st' e (.ref l))
  | none => halloc st { tag := .s "LIST" }

/-- Append a node to a list node, linking its `parent` (`nodeList`). -/
def nodeList (st : St) (l n : Nat) : St :=
  let st' := setParent st n (.ref l)
  hMod st' l (fun o => { o with listF := o.listF ++ [n] })

/-- Create an expression-and-arguments node (`nodeArgExpr`); the argument
list node is unwrapped to its elements. -/
def nodeArgExpr (st : St) (e : Nat) (lst : Option Nat) : Nat × St :=
  let args := match lst with
    | some l => (hGet st l).listF
    | none => []
  halloc st { tag := .s "ARG", exprF := some e, argsF := args }

/-- Create a range node (`nodeRange`, two-argument form). -/
def nodeRange2 (st : St) (a b : Nat) : Nat × St :=
  halloc st { tag := .s "RANGE", startF := some a, stopF := some b }

/-- Create a return-list node (`nodeReturnList`).  In this development the
only selector ever constructed is the one the assignment case builds, which
returns the captured right-hand node at index 0 and fails for any other
index; `retSrc` records the captured node. -/
def nodeReturnList (st : St) (src : Nat) : Nat × St :=
  halloc st { tag := .s "RETLIST", retSrc := some src }

/-- Selector of the return list built by the assignment case: index 0
yields the captured unevaluated right-hand node, any other index fails. -/
def retSelector (src : Nat) (n : Nat) : Except Err Nat :=
  if n = 0 then .ok src
  else .error (.evalErr ("element number " ++ toString (n + 1) ++
    " undefined in return list"))

/-- Method `reduceIfReturnList`: a RETLIST value is reduced by calling its selector
at (1, 0) and re-linking the result's `parent`; everything else passes
through. -/
def reduceIfReturnList (st : St) (v : Nat) : St × Nat :=
  let o := hGet st v
  if o.tag = .s "RETLIST" then
    match o.retSrc with
    | some src => (setParent st src o.parent, src)
    | none => (st, v)
  else (st, v)

/-- Assignment target triple produced by `validateAssignment`: the left
node (none for the `~` discard), the name, and the index arguments. -/
structure AsgTarget where
  left : Option Nat := none
  id : String := ""
  args : List Nat := []
  deriving DecidableEq, Repr

/-- Validation of one non-tensor left-hand side (the NAME / ARG / `<~>`
cases of `validateAssignment`). -/
def validateOne (st : St) (t : Nat) : Except Err AsgTarget :=
  let base := "invalid left hand side of assignment"
  let ro := base ++ ": cannot assign to a read only value:"
  let o := hGet st t
  if o.tag = .s "NAME" then
    if st.readonlyNameTable.contains o.id then
      .error (.evalErr (ro ++ " " ++ o.id ++ "."))
    else .ok { left := some t, id := o.id, args := [] }
  else if o.tag = .s "ARG" ∧ (hGet st (o.exprF.getD 0)).tag = .s "NAME" then
    let e := hGet st (o.exprF.getD 0)
    if st.readonlyNameTable.contains e.id then
      .error (.evalErr (ro ++ " " ++ e.id ++ "."))
    else .ok { left := some (o.exprF.getD 0), id := e.id, args := o.argsF }
  else if o.tag = .s "<~>" then
    .ok { left := none, id := "~", args := [] }
  else .error (.evalErr (base ++ "."))

/-- Method `validateAssignment`: validate the left-hand side of an assignment into
target triples; a shallow one-row tensor on the left (multiple assignment)
validates each element of its first row. -/
def validateAssignment (st : St) (t : Nat) (shallow : Bool := true) :
    Except Err (List AsgTarget) :=
  let o := hGet st t
  if o.tag = .s "NAME" ∨ o.tag = .s "ARG" ∨ o.tag = .s "<~>" then
    (validateOne st t).map (fun x => [x])
  else if shallow ∧ isTensorO o ∧ o.dim.getD 0 0 = 1 then
    (o.array.getD 0 []).mapM (validateOne st)
  else .error (.evalErr "invalid left hand side of assignment.")

/-- Method `incDecOp`: the increment / decrement operator bodies.  `pre` selects
the prefix form, `plus` the operation.  The operand must be a NAME node;
reading `this.nameTable[id].expr` for an unbound name raises a JavaScript
TypeError in the source, reproduced here. -/
def incDecOp (st : St) (pre plus : Bool) (tree : Nat) : St × Except Err Nat :=
  let o := hGet st tree
  if o.tag = .s "NAME" then
    match recFind st.nameTable o.id with
    | none =>
      (st, .error (.typeErr "cannot read properties of undefined (reading expr)"))
    | some en =>
      if pre then
        let (oneRef, st0) := halloc st cdOne
        match tensorAddSub st0 plus en.expr oneRef with
        | (st1, .ok newRef) =>
          let nt := recSet st1.nameTable o.id { args := en.args, expr := newRef }
          ({ st1 with nameTable := nt }, .ok newRef)
        | (st1, .error e) => (st1, .error e)
      else
        match copyObj st en.expr with
        | (st1, .ok cp) =>
          let (oneRef, st1a) := halloc st1 cdOne
          match tensorAddSub st1a plus en.expr oneRef with
          | (st2, .ok newRef) =>
            let nt := recSet st2.nameTable o.id { args := en.args, expr := newRef }
            ({ st2 with nameTable := nt }, .ok cp)
          | (st2, .error e) => (st2, .error e)
        | (st1, .error e) => (st1, .error e)
  else
    (st, .error (.syntaxErr ("invalid " ++
      (if plus then "increment" else "decrement") ++ " variable.")))

/-! Initial interpreter state: the constructor seeds `nameTable` with the
`nativeNameTable` constants and the external `constantsTable` and records
their names in `readonlyNameTable`. -/

/-- ComplexDecimal imaginary unit (`ComplexDecimal.onei()`). -/
def cdImag : Obj :=
  { tag := .n numberClassComplex, ocls := .num, re := .int 0, im := .int 1,
    cls := numberClassComplex }

/-- ComplexDecimal logical constant. -/
def cdLogical (z : Int) : Obj :=
  { tag := .n numberClassLogical, ocls := .num, re := .int z, im := .int 0,
    cls := numberClassLogical }

/-- The `nativeNameTable` of the `Evaluator` class: the objects created once
at construction and shared by every `Restart`.  The payloads of `e`, `pi`,
`inf` and `nan` come from the external decimal library and stay symbolic. -/
def nativeSeed : List (String × Obj) :=
  [("false", cdLogical 0),
   ("true", cdLogical 1),
   ("i", cdImag), ("I", cdImag), ("j", cdImag), ("J", cdImag),
   ("e", { mkNum .de with }),
   ("pi", mkNum .dpi),
   ("inf", mkNum .dinf), ("Inf", mkNum .dinf),
   ("nan", mkNum .dnan), ("NaN", mkNum .dnan)]

/-- Method `loadNativeTable`: insert the native objects and the constants table
into `nameTable`, pushing each name onto `readonlyNameTable`. -/
def loadNativeTable (st : St) : St :=
  let st1 := st.nativeRefs.foldl (fun s p =>
    { s with nameTable := recSet s.nameTable p.1 { args := [], expr := p.2 },
             readonlyNameTable := s.readonlyNameTable ++ [p.1] }) st
  st.consts.foldl (fun s p =>
    { s with nameTable := recSet s.nameTable p.1 { args := [], expr := p.2 },
             readonlyNameTable := s.readonlyNameTable ++ [p.1] }) st1

/-- Method `Restart`: wipe the name, local and read-only tables and re-seed. -/
def Restart (st : St) : St :=
  loadNativeTable
    { st with nameTable := [], localTable := [], readonlyNameTable := [] }

/-- Body of the per-name loop of `Clear`: delete the name from the name
table and the base function table unless it is read-only. -/
def clearOne (s : St) (name : String) : St :=
  if s.readonlyNameTable.contains name then s
  else { s with nameTable := recDel s.nameTable name,
                baseFns := recDel s.baseFns name }

/-- Method `Clear`: with no names, restart; otherwise run `clearOne` over
the listed names. -/
def Clear (st : St) (names : List String) : St :=
  if names = [] then Restart st
  else names.foldl clearOne st

/-- Initial heap: the native constant objects at references 0, 1, .... -/
def initHeap : List Obj := nativeSeed.map (fun p => p.2)

/-- Heap references of the native constants, by name. -/
def initNativeRefs : List (String × Nat) :=
  (nativeSeed.map (fun p => p.1)).zip (List.range nativeSeed.length)

/-- Freshly initialized interpreter state (`Evaluator.initialize` with no
configuration; the external `constantsTable` contents are private to a
module outside this repository and are modelled as empty here — theorems
about read-only protection quantify over `readonlyNameTable` membership
instead of over that table's concrete contents). -/
def initSt : St :=
  loadNativeTable { heap := initHeap, nativeRefs := initNativeRefs }

/-- Method `aliasName`: alias resolution.  Modelled from the spec as an exact-match
table (the real table is regular-expression keyed and configured by the
caller; no claim configures aliases). -/
def aliasName (st : St) (s : String) : String :=
  match recFind st.aliasT s with
  | some a => a
  | none => s

/-! The two unparsers.  Both are keyed on the same node tags as the
evaluator; `Unparse` catches every internal failure and yields `<ERROR>`,
`unparserML` catches and yields `<mi>error</mi>` unless the debug flag is
set, in which case it rethrows.  The model bakes each method's try/catch
into the function: the failure sources are property access on `null`
(a JavaScript TypeError) and call-stack exhaustion (fuel), both of which the
per-level catch intercepts. -/

/-- Operator tags rendered as plain infix text (the shared binary group of
both unparsers and the evaluator's binary dispatch). -/
def binOpTags : List String :=
  ["+", "-", ".*", "*", "./", "/", ".\\", "\\", ".^", "^", ".**", "**",
   "<", "<=", "==", ">=", ">", "!=", "~=", "&", "|", "&&", "||"]

/-- Assignment operator tags. -/
def asgOpTags : List String :=
  ["=", "+=", "-=", "*=", "/=", "\\=", "^=", "**=",
   ".*=", "./=", ".\\=", ".^=", ".**=", "&=", "|="]

/-- Canonical text of a decimal payload (external formatting, modelled). -/
def decimStr : Decim → String
  | .int z => toString z
  | .dpi => "pi"
  | .de => "e"
  | .dinf => "Inf"
  | .dnan => "NaN"

/-- ComplexDecimal.unparse (external, modelled). -/
def unparseNumber (o : Obj) : String :=
  if o.im = .int 0 then decimStr o.re
  else decimStr o.re ++ "+" ++ decimStr o.im ++ "i"

/-- CharString.unparse (external, modelled). -/
def unparseString (o : Obj) : String := o.sval

/-- Reference of an optional child property (`undefined` when absent). -/
def optRef : Option Nat → JRef
  | none => .undef
  | some i => .ref i

/-- Method `Unparse`: structural plain-text rendering.  Total by construction: the
method's try/catch replaces any internal failure (null access, stack
exhaustion) with the `<ERROR>` placeholder. -/
def Unparse (st : St) : Nat → JRef → String
  | 0, _ => "<ERROR>"
  | Nat.succ f, r =>
    match r with
    | .undef => "<UNDEFINED>"
    | .jnull => "<ERROR>"
    | .ref i =>
      let o := hGet st i
      if isNumberO o then unparseNumber o
      else if isStringO o then unparseString o
      else if isTensorO o then
        "[" ++ String.intercalate ";"
          (o.array.map (fun row => String.intercalate ","
            (row.map (fun c => Unparse st f (.ref c))))) ++ "]"
      else
        match o.tag with
        | .n _ => "<INVALID>"
        | .s ty =>
          if binOpTags.contains ty ∨ asgOpTags.contains ty then
            Unparse st f (optRef o.left) ++ ty ++ Unparse st f (optRef o.right)
          else if ty = "()" then "(" ++ Unparse st f (optRef o.right) ++ ")"
          else if ty = "!" ∨ ty = "~" then ty ++ Unparse st f (optRef o.right)
          else if ty = "+_" then "+" ++ Unparse st f (optRef o.right)
          else if ty = "-_" then "-" ++ Unparse st f (optRef o.right)
          else if ty = "++_" then "++" ++ Unparse st f (optRef o.right)
          else if ty = "--_" then "--" ++ Unparse st f (optRef o.right)
          else if ty = ".'" ∨ ty = "'" then Unparse st f (optRef o.left) ++ ty
          else if ty = "_++" then Unparse st f (optRef o.left) ++ "++"
          else if ty = "_--" then Unparse st f (optRef o.left) ++ "--"
          else if ty = "NAME" then
            if o.id = "inf" ∨ o.id = "Inf" then "&infin;" else o.id
          else if ty = "LIST" then
            String.intercalate "\n"
              (o.listF.map (fun c => Unparse st f (.ref c))) ++ "\n"
          else if ty = "RANGE" then
            match o.startF, o.stopF with
            | some a, some b =>
              match o.strideF with
              | some d =>
                Unparse st f (.ref a) ++ ":" ++ Unparse st f (.ref d) ++ ":" ++
                  Unparse st f (.ref b)
              | none => Unparse st f (.ref a) ++ ":" ++ Unparse st f (.ref b)
            | _, _ => ":"
          else if ty = "ENDRANGE" then "end"
          else if ty = ":" then ":"
          else if ty = "<~>" then "~"
          else if ty = "ARG" then
            Unparse st f (optRef o.exprF) ++ "(" ++
              String.intercalate "," (o.argsF.map (fun c => Unparse st f (.ref c))) ++ ")"
          else if ty = "RETLIST" then "<RETLIST>"
          else if ty = "CmdWList" then
            o.id ++ " " ++ String.intercalate " "
              (o.argsF.map (fun c => Unparse st f (.ref c)))
          else "<INVALID>"

/-- ComplexDecimal.unparseML (external, modelled). -/
def unparseNumberML (o : Obj) : String := "<mn>" ++ unparseNumber o ++ "</mn>"

/-- Operator tags the math-markup unparser renders with a plain `mo`
element, per the source's shared case group. -/
def mlPlainOpTags : List String :=
  ["+", "-", ".*", "./", ".\\", "\\", ".^", ".**", "<", ">", "==",
   "&", "|", "&&", "||", "=", "+=", "-=", "*=", "/=", "\\=", "^=", "**=",
   ".*=", "./=", ".\\=", ".^=", ".**=", "&=", "|="]

/-- Body of one level of `unparserML` (the code inside the method's try):
`rec` is the recursive call at the next-smaller call-stack depth.
`substSymbol` and the custom `unparserML` templates of base-function-table
entries are external; a registered template is outside the model. -/
def unparserMLBody (st : St) (rec : JRef → Except String String) (r : JRef) :
    Except String String :=
  match r with
  | .undef => .ok "<mi>undefined</mi>"
  | .jnull => .error "TypeError: cannot read properties of null"
  | .ref i =>
    let o := hGet st i
    if isNumberO o then .ok (unparseNumberML o)
    else if isStringO o then .ok ("<ms>" ++ o.sval ++ "</ms>")
    else if isTensorO o then
      (o.array.mapM (fun (row : List Nat) =>
        (row.mapM (fun c => rec (.ref c))).map
          (fun cells => "<mtr>" ++ String.intercalate "" (cells.map
            (fun s => "<mtd>" ++ s ++ "</mtd>")) ++ "</mtr>"))).map
        (fun rows => "<mtable>" ++ String.intercalate "" rows ++ "</mtable>")
    else
      match o.tag with
      | .n _ => .ok "<mi>invalid</mi>"
      | .s ty =>
        if mlPlainOpTags.contains ty then do
          let l ← rec (optRef o.left)
          let rr ← rec (optRef o.right)
          pure (l ++ "<mo>" ++ ty ++ "</mo>" ++ rr)
        else if ty = "<=" then do
          let l ← rec (optRef o.left)
          let rr ← rec (optRef o.right)
          pure (l ++ "<mo>&le;</mo>" ++ rr)
        else if ty = ">=" then do
          let l ← rec (optRef o.left)
          let rr ← rec (optRef o.right)
          pure (l ++ "<mo>&ge;</mo>" ++ rr)
        else if ty = "!=" ∨ ty = "~=" then do
          let l ← rec (optRef o.left)
          let rr ← rec (optRef o.right)
          pure (l ++ "<mo>&ne;</mo>" ++ rr)
        else if ty = "()" then do
          let rr ← rec (optRef o.right)
          pure ("<mo>(</mo>" ++ rr ++ "<mo>)</mo>")
        else if ty = "*" then do
          let l ← rec (optRef o.left)
          let rr ← rec (optRef o.right)
          pure (l ++ "<mo>&times;</mo>" ++ rr)
        else if ty = "/" then do
          let l ← rec (optRef o.left)
          let rr ← rec (optRef o.right)
          pure ("<mfrac><mrow>" ++ l ++ "</mrow><mrow>" ++ rr ++ "</mrow></mfrac>")
        else if ty = "**" ∨ ty = "^" then do
          let l ← rec (optRef o.left)
          let rr ← rec (optRef o.right)
          pure ("<msup><mrow>" ++ l ++ "</mrow><mrow>" ++ rr ++ "</mrow></msup>")
        else if ty = "!" ∨ ty = "~" then do
          let rr ← rec (optRef o.right)
          pure ("<mo>" ++ ty ++ "</mo>" ++ rr)
        else if ty = "+_" ∨ ty = "-_" ∨ ty = "++_" ∨ ty = "--_" then do
          let rr ← rec (optRef o.right)
          pure ("<mo>" ++ ty.dropRight 1 ++ "</mo>" ++ rr)
        else if ty = "_++" ∨ ty = "_--" then do
          let l ← rec (optRef o.left)
          pure (l ++ "<mo>" ++ ty.drop 1 ++ "</mo>")
        else if ty = ".'" then do
          let l ← rec (optRef o.left)
          pure ("<msup><mrow>" ++ l ++ "</mrow><mrow><mi>T</mi></mrow></msup>")
        else if ty = "'" then do
          let l ← rec (optRef o.left)
          pure ("<msup><mrow>" ++ l ++ "</mrow><mrow><mi>H</mi></mrow></msup>")
        else if ty = "NAME" then .ok ("<mi>" ++ o.id ++ "</mi>")
        else if ty = "LIST" then
          (o.listF.mapM (fun c => rec (.ref c))).map
            (fun items => "<mtable>" ++ String.intercalate ""
              (items.map (fun s => "<mtr><mtd>" ++ s ++ "</mtd></mtr>")) ++
              "</mtable>")
        else if ty = "RANGE" then
          match o.startF, o.stopF with
          | some a, some b =>
            match o.strideF with
            | some d => do
              let sa ← rec (.ref a)
              let sd ← rec (.ref d)
              let sb ← rec (.ref b)
              pure (sa ++ "<mo>:</mo>" ++ sd ++ "<mo>:</mo>" ++ sb)
            | none => do
              let sa ← rec (.ref a)
              let sb ← rec (.ref b)
              pure (sa ++ "<mo>:</mo>" ++ sb)
          | _, _ => .ok "<mo>:</mo>"
        else if ty = "ENDRANGE" then .ok "<mi>end</mi>"
        else if ty = ":" then .ok "<mo>:</mo>"
        else if ty = "<~>" then .ok "<mo>~</mo>"
        else if ty = "ARG" then
          if o.argsF = [] then do
            let se ← rec (optRef o.exprF)
            pure (se ++ "<mrow><mo>(</mo><mo>)</mo></mrow>")
          else do
            let arglist ← (o.argsF.mapM (fun c => rec (.ref c))).map
              (String.intercalate "<mo>,</mo>")
            let eo := hGet st (o.exprF.getD 0)
            if eo.tag = .s "NAME" then
              match recFind st.baseFns (aliasName st eo.id) with
              | some bfe =>
                if bfe.hasML then
                  Except.error "external custom unparserML renderer"
                else
                  pure ("<mi>" ++ eo.id ++ "</mi><mrow><mo>(</mo>" ++ arglist ++
                    "<mo>)</mo></mrow>")
              | none =>
                pure ("<mi>" ++ eo.id ++ "</mi><mrow><mo>(</mo>" ++ arglist ++
                  "<mo>)</mo></mrow>")
            else do
              let se ← rec (optRef o.exprF)
              pure (se ++ "<mrow><mo>(</mo>" ++ arglist ++ "<mo>)</mo></mrow>")
        else if ty = "RETLIST" then .ok "<mi>RETLIST</mi>"
        else if ty = "CmdWList" then
          (o.argsF.mapM (fun c => rec (.ref c))).map
            (fun items => "<mtext>" ++ o.id ++ " " ++
              String.intercalate " " items ++ "</mtext>")
        else .ok "<mi>invalid</mi>"
/-- Method `unparserML`: structural math-markup rendering.  Each level ends
in the method's catch: a failure of the level's body (null access, stack
exhaustion, an external custom renderer) is replaced by `<mi>error</mi>`
unless the debug flag is set, in which case the error is rethrown to the
caller. -/
def unparserML (st : St) (debug : Bool) : Nat → JRef → Except String String
  | 0, _ =>
    if debug then .error "RangeError: maximum call stack size exceeded"
    else .ok "<mi>error</mi>"
  | Nat.succ f, r =>
    match unparserMLBody st (fun c => unparserML st debug f c) r with
    | .ok s => .ok s
    | .error e => if debug then .error e else .ok "<mi>error</mi>"

/-! The recursive evaluator (`Evaluator` method).  It is indexed by fuel
(call-stack depth); every per-case helper receives the evaluator at the
next-smaller fuel as the function `ev`. -/

/-- Type of the recursive evaluator as passed to the per-case helpers:
state, node reference, `local` flag, function name. -/
def EvalFn : Type := St → Nat → Bool → String → St × Except Err Nat

/-- Evaluate and pass the result through `reduceIfReturnList` (the source's
ubiquitous `reduceIfReturnList(Evaluator(...))` combination). -/
def evalReduce (ev : EvalFn) (st : St) (t : Nat) (lcl : Bool) (fname : String) :
    St × Except Err Nat :=
  match ev st t lcl fname with
  | (s, .ok v) =>
    let (s', v') := reduceIfReturnList s v
    (s', .ok v')
  | (s, .error e) => (s, .error e)

/-- Local-frame lookup guard
(`local && localTable[fname] && localTable[fname][id]`). -/
def localLookup (st : St) (lcl : Bool) (fname id : String) : Option Nat :=
  if lcl then
    match recFind st.localTable fname with
    | some fr => recFind fr id
    | none => none
  else none

/-- Is a `type` tag numeric (the `typeof x.type === 'number'` test)? -/
def isNumTag : TTag → Bool
  | .n _ => true
  | .s _ => false

/-- Evaluate an argument list, linking each argument's `parent` and `index`
to the call node first (the evaluated-arguments paths of the `ARG` case). -/
def evalArgsIdx (ev : EvalFn) :
    St → Nat → List Nat → Nat → Bool → String → St × Except Err (List Nat)
  | st, _, [], _, _, _ => (st, .ok [])
  | st, parentRef, a :: rest, i, lcl, fname =>
    let st1 := setIdx (setParent st a (.ref parentRef)) a i
    match evalReduce ev st1 a lcl fname with
    | (st2, .error e) => (st2, .error e)
    | (st2, .ok v) =>
      match evalArgsIdx ev st2 parentRef rest (i + 1) lcl fname with
      | (st3, .error e) => (st3, .error e)
      | (st3, .ok vs) => (st3, .ok (v :: vs))

/-- Selective argument evaluation for built-ins: each argument's `parent`
and `index` are linked; an argument is evaluated only when its
selective-evaluation flag is true, and passed unreduced otherwise. -/
def evalArgsSel (ev : EvalFn) :
    St → Nat → List Nat → List Bool → Nat → Bool → String →
      St × Except Err (List Nat)
  | st, _, [], _, _, _, _ => (st, .ok [])
  | st, parentRef, a :: rest, flags, i, lcl, fname =>
    let st1 := setIdx (setParent st a (.ref parentRef)) a i
    let step : St × Except Err Nat :=
      if flags.getD i false then evalReduce ev st1 a lcl fname else (st1, .ok a)
    match step with
    | (st2, .error e) => (st2, .error e)
    | (st2, .ok v) =>
      match evalArgsSel ev st2 parentRef rest flags (i + 1) lcl fname with
      | (st3, .error e) => (st3, .error e)
      | (st3, .ok vs) => (st3, .ok (v :: vs))

/-- Evaluate index arguments in the default context and linearize each
(the `args.map((arg) => linearize(reduceIfReturnList(Evaluator(arg))))`
pattern of the indexed-assignment branches, which does not link
`parent`/`index`). -/
def evalArgsLin (ev : EvalFn) :
    St → List Nat → St × Except Err (List Nat)
  | st, [] => (st, .ok [])
  | st, a :: rest =>
    match evalReduce ev st a false "" with
    | (st1, .error e) => (st1, .error e)
    | (st1, .ok v) =>
      let (lv, st2) := linearize st1 v
      match evalArgsLin ev st2 rest with
      | (st3, .error e) => (st3, .error e)
      | (st3, .ok vs) => (st3, .ok (lv :: vs))

/-- Bind the arguments of a user-defined function call into its fresh local
frame: each argument is linked to the call node and reduced in the caller's
context (`Evaluator(args[i], true, fname)`), then stored under the formal
parameter's name in `localTable[fid]`. -/
def bindParams (ev : EvalFn) :
    St → Nat → String → List Nat → List Nat → Nat → String →
      St × Except Err Unit
  | st, _, _, [], _, _, _ => (st, .ok ())
  | st, _, _, _ :: _, [], _, _ => (st, .ok ())
  | st, parentRef, fid, p :: ps, a :: rest, i, fname =>
    let st1 := setIdx (setParent st a (.ref parentRef)) a i
    match evalReduce ev st1 a true fname with
    | (st2, .error e) => (st2, .error e)
    | (st2, .ok v) =>
      let frame := (recFind st2.localTable fid).getD []
      let lt := recSet st2.localTable fid (recSet frame (hGet st2 p).id v)
      let st3 := { st2 with localTable := lt }
      bindParams ev st3 parentRef fid ps rest (i + 1) fname

/-- Evaluate the items of a LIST node in order: possible conversion of an
unbound word-list-command name, linking of `parent`/`index` to the result
node, reduction, appending to the result list, and the implicit
last-result (`ans`) update for results carrying a numeric type tag. -/
def evalListItems (ev : EvalFn) :
    St → List Nat → Nat → Nat → Bool → String → St × Except Err Unit
  | st, [], _, _, _, _ => (st, .ok ())
  | st, c :: rest, resultRef, i, lcl, fname =>
    let co := hGet st c
    let st0 :=
      if co.tag = .s "NAME" ∧ localLookup st lcl fname co.id = none ∧
          recFind st.nameTable co.id = none ∧ co.id ∈ st.commandsT then
        hMod st c (fun o => { o with tag := .s "CmdWList", argsF := [] })
      else st
    let st1 := setIdx (setParent st0 c (.ref resultRef)) c i
    match evalReduce ev st1 c lcl fname with
    | (st2, .error e) => (st2, .error e)
    | (st2, .ok v) =>
      let st3 := hMod st2 resultRef (fun o => { o with listF := o.listF ++ [v] })
      let st4 :=
        if isNumTag (hGet st3 v).tag then
          { st3 with nameTable := recSet st3.nameTable "ans" { args := [], expr := v } }
        else st3
      evalListItems ev st4 rest resultRef (i + 1) lcl fname

/-- The function-definition test of the assignment case: every index
argument is a bare NAME node whose identifier is absent from the name
table. -/
def isFunctionTest (st : St) (args : List Nat) : Bool :=
  args.all (fun a =>
    decide ((hGet st a).tag = TTag.s "NAME") &&
      (recFind st.nameTable (hGet st a).id).isNone)

/-- Append the `name = value` sub-result of an executed indexed target
(`nodeList(resultList, nodeOp('=', nodeName(id), nameTable[id].expr))`). -/
def afterIndexed (st : St) (resultList : Nat) (id : String) : St × Except Err Unit :=
  match recFind st.nameTable id with
  | some en =>
    let (nm, st1) := nodeName st id
    let (eq, st2) := nodeOp st1 "=" nm en.expr
    (nodeList st2 resultList eq, .ok ())
  | none => (st, .error (.typeErr "cannot read properties of undefined (reading expr)"))

/-- Per-target loop of the assignment case (lines 1000-1149 of the source):
`treeRef` is the assignment node, `op` the compound-operator prefix (empty
for plain `=`), `rhsSrc` the node captured by the return-list selector, `n`
the current target position. -/
def assignTargets (ev : EvalFn) :
    St → Nat → String → Nat → List AsgTarget → Nat → Nat → Bool → String →
      St × Except Err Unit
  | st, _, _, _, [], _, _, _, _ => (st, .ok ())
  | st, treeRef, op, rhsSrc, tgt :: rest, n, resultList, lcl, fname =>
    match tgt.left with
    | none =>
      -- discard target `~`: the source's `if (left)` guard skips the body
      assignTargets ev st treeRef op rhsSrc rest (n + 1) resultList lcl fname
    | some leftRef =>
      if tgt.args = [] then
        -- plain name target.  The re-evaluation guard
        -- `if (right.type !== 'RETLIST') right = Evaluator(right)` never
        -- fires: `right` is always the RETLIST wrapper here.
        match retSelector rhsSrc n with
        | .error e => (st, .error e)
        | .ok rightN =>
          let st1 := setParent st rightN (.ref rhsSrc)
          let (expr, st2) :=
            if op = "" then (rightN, st1) else nodeOp st1 op leftRef rightN
          match evalReduce ev st2 expr false "" with
          | (st3, .ok v) =>
            let nt := recSet st3.nameTable tgt.id { args := [], expr := v }
            let st4 := { st3 with nameTable := nt }
            let (eq, st5) := nodeOp st4 "=" leftRef v
            let st6 := nodeList st5 resultList eq
            assignTargets ev st6 treeRef op rhsSrc rest (n + 1) resultList lcl fname
          | (st3, .error e) =>
            let nt := recSet st3.nameTable tgt.id { args := [], expr := expr }
            ({ st3 with nameTable := nt }, .error e)
      else if op ≠ "" then
        -- indexed target with compound operator
        match recFind st.nameTable tgt.id with
        | some en =>
          if en.args = [] then
            if tgt.args.length = 1 then
              match evalReduce ev st (tgt.args.getD 0 0) lcl fname with
              | (st1, .error e) => (st1, .error e)
              | (st1, .ok arg0) =>
                let a0 := hGet st1 arg0
                let logical := isTensorO a0 ∧ a0.tag = .n numberClassLogical
                let (lin, st2) := linearize st1 arg0
                let fetch : St × Except Err Nat :=
                  match recFind st2.nameTable tgt.id with
                  | some en2 =>
                    if logical then getItemsLogical st2 en2.expr tgt.id arg0
                    else getItems st2 en2.expr tgt.id [arg0]
                  | none =>
                    (st2, .error (.typeErr "cannot read properties of undefined (reading expr)"))
                match fetch with
                | (st3, .error e) => (st3, .error e)
                | (st3, .ok cur) =>
                  match retSelector rhsSrc n with
                  | .error e => (st3, .error e)
                  | .ok src =>
                    match evalReduce ev st3 src false "" with
                    | (st4, .error e) => (st4, .error e)
                    | (st4, .ok rv) =>
                      let (rvT, st5) := toTensor st4 rv
                      let (opNode, st6) := nodeOp st5 op cur rvT
                      match evalReduce ev st6 opNode false fname with
                      | (st7, .error e) => (st7, .error e)
                      | (st7, .ok combined) =>
                        let (combT, st8) := toTensor st7 combined
                        let write : St × Except Err Unit :=
                          if logical then setItemsLogical st8 tgt.id lin combT
                          else setItems st8 tgt.id [lin] combT
                        match write with
                        | (st9, .error e) => (st9, .error e)
                        | (st9, .ok _) =>
                          match afterIndexed st9 resultList tgt.id with
                          | (stA, .error e) => (stA, .error e)
                          | (stA, .ok _) =>
                            assignTargets ev stA treeRef op rhsSrc rest (n + 1)
                              resultList lcl fname
            else
              match evalArgsLin ev st tgt.args with
              | (st1, .error e) => (st1, .error e)
              | (st1, .ok subs) =>
                let fetch : St × Except Err Nat :=
                  match recFind st1.nameTable tgt.id with
                  | some en2 => getItems st1 en2.expr tgt.id tgt.args
                  | none =>
                    (st1, .error (.typeErr "cannot read properties of undefined (reading expr)"))
                match fetch with
                | (st2, .error e) => (st2, .error e)
                | (st2, .ok cur) =>
                  match retSelector rhsSrc n with
                  | .error e => (st2, .error e)
                  | .ok src =>
                    match evalReduce ev st2 src false "" with
                    | (st3, .error e) => (st3, .error e)
                    | (st3, .ok rv) =>
                      let (rvT, st4) := toTensor st3 rv
                      let (opNode, st5) := nodeOp st4 op cur rvT
                      match evalReduce ev st5 opNode false fname with
                      | (st6, .error e) => (st6, .error e)
                      | (st6, .ok combined) =>
                        let (combT, st7) := toTensor st6 combined
                        match setItems st7 tgt.id subs combT with
                        | (st8, .error e) => (st8, .error e)
                        | (st8, .ok _) =>
                          match afterIndexed st8 resultList tgt.id with
                          | (stA, .error e) => (stA, .error e)
                          | (stA, .ok _) =>
                            assignTargets ev stA treeRef op rhsSrc rest (n + 1)
                              resultList lcl fname
          else
            (st, .error (.evalErr ("in computed assignment " ++ tgt.id ++
              "(index) OP= X, " ++ tgt.id ++ " cannot be a function.")))
        | none =>
          (st, .error (.evalErr ("in computed assignment " ++ tgt.id ++
            "(index) OP= X, " ++ tgt.id ++ " must be defined first.")))
      else
        -- plain `=` with index arguments: function definition or indexed
        -- matrix reference
        if isFunctionTest st tgt.args then
          match retSelector rhsSrc n with
          | .error e => (st, .error e)
          | .ok body =>
            let nt := recSet st.nameTable tgt.id { args := tgt.args, expr := body }
            let st1 := { st with nameTable := nt }
            let st2 := nodeList st1 resultList treeRef
            assignTargets ev st2 treeRef op rhsSrc rest (n + 1) resultList lcl fname
        else
          let write : St × Except Err Unit :=
            if tgt.args.length = 1 then
              match evalReduce ev st (tgt.args.getD 0 0) lcl fname with
              | (st1, .error e) => (st1, .error e)
              | (st1, .ok arg0) =>
                let a0 := hGet st1 arg0
                let logical := isTensorO a0 ∧ a0.tag = .n numberClassLogical
                let (lin, st2) := linearize st1 arg0
                match retSelector rhsSrc n with
                | .error e => (st2, .error e)
                | .ok src =>
                  match evalReduce ev st2 src false "" with
                  | (st3, .error e) => (st3, .error e)
                  | (st3, .ok rv) =>
                    let (rvT, st4) := toTensor st3 rv
                    if logical then setItemsLogical st4 tgt.id lin rvT
                    else setItems st4 tgt.id [lin] rvT
            else
              match evalArgsLin ev st tgt.args with
              | (st1, .error e) => (st1, .error e)
              | (st1, .ok subs) =>
                match retSelector rhsSrc n with
                | .error e => (st1, .error e)
                | .ok src =>
                  match evalReduce ev st1 src false "" with
                  | (st2, .error e) => (st2, .error e)
                  | (st2, .ok rv) =>
                    let (rvT, st3) := toTensor st2 rv
                    setItems st3 tgt.id subs rvT
          match write with
          | (stW, .error e) => (stW, .error e)
          | (stW, .ok _) =>
            match afterIndexed stW resultList tgt.id with
            | (stA, .error e) => (stA, .error e)
            | (stA, .ok _) =>
              assignTargets ev stA treeRef op rhsSrc rest (n + 1) resultList lcl fname

/-- Walk of the `parent` chain of the ENDRANGE case
(`while (parent !== null && parent.type !== 'ARG') parent = parent.parent`):
reading `type` of `undefined` raises a TypeError as in JavaScript. -/
def walkParent (st : St) : Nat → JRef → Except Err JRef
  | _, .jnull => .ok .jnull
  | _, .undef => .error (.typeErr "cannot read properties of undefined (reading type)")
  | 0, .ref _ => .error .fuelErr
  | Nat.succ k, .ref i =>
    if (hGet st i).tag = .s "ARG" then .ok (.ref i)
    else walkParent st k (hGet st i).parent

/-- Unary plus / minus (`Tensor.uplus` / `Tensor.uminus`, external,
modelled on the scalar integer fragment). -/
def tensorUnaryPM (st : St) (plus : Bool) (aRef : Nat) : St × Except Err Nat :=
  let a := hGet st aRef
  if isNumberO a then
    if plus then (st, .ok aRef)
    else
      match a.re, a.im with
      | .int x, .int y =>
        let (c, st') := halloc st (mkNum (.int (-x)))
        let _ := y
        (st', .ok c)
      | _, _ => (st, .error (.externErr "uminus: payload not modelled"))
  else (st, .error (.externErr "unary operator operand not modelled"))

/-- Binary operator dispatch through `opTable` (external `Tensor` engine;
the claims only exercise addition and subtraction of scalars). -/
def opApply (st : St) (ty : String) (a b : Nat) : St × Except Err Nat :=
  if ty = "+" then tensorAddSub st true a b
  else if ty = "-" then tensorAddSub st false a b
  else (st, .error (.externErr ("operator " ++ ty ++ " not modelled")))

/-! The recursive evaluator (`Evaluator` method) follows.  The source method
is one switch; here each case of that switch is its own definition (named
`case...`), all parameterized by the evaluator at the next-smaller fuel
(`ev`), and the dispatcher `Evaluator` selects among them on the node's
`type` tag in the source's order. -/

/-- Binary operator case: link the operands' `parent`, reduce left then
right, apply the operator implementation from `opTable`. -/
def caseBinary (ev : EvalFn) (st : St) (tree : Nat) (o : Obj) (ty : String)
    (lcl : Bool) (fname : String) : St × Except Err Nat :=
  match o.left, o.right with
  | some l, some r =>
    let st1 := setParent (setParent st l (.ref tree)) r (.ref tree)
    match evalReduce ev st1 l lcl fname with
    | (st2, .error e) => (st2, .error e)
    | (st2, .ok lv) =>
      match evalReduce ev st2 r lcl fname with
      | (st3, .error e) => (st3, .error e)
      | (st3, .ok rv) => opApply st3 ty lv rv
  | _, _ => (st, .error (.typeErr "cannot set properties of undefined"))

/-- Parenthesis case `'()'`: reduce the grouped expression. -/
def caseParen (ev : EvalFn) (st : St) (tree : Nat) (o : Obj)
    (lcl : Bool) (fname : String) : St × Except Err Nat :=
  match o.right with
  | some r =>
    let st1 := setParent st r (.ref tree)
    evalReduce ev st1 r lcl fname
  | none => (st, .error (.typeErr "cannot set properties of undefined"))

/-- Unary plus / minus case. -/
def caseUnaryPM (ev : EvalFn) (st : St) (tree : Nat) (o : Obj) (ty : String)
    (lcl : Bool) (fname : String) : St × Except Err Nat :=
  match o.right with
  | some r =>
    let st1 := setParent st r (.ref tree)
    match evalReduce ev st1 r lcl fname with
    | (st2, .error e) => (st2, .error e)
    | (st2, .ok v) => tensorUnaryPM st2 (ty = "+_") v
  | none => (st, .error (.typeErr "cannot set properties of undefined"))

/-- Prefix increment / decrement case: the operand is passed to the
operator body unevaluated. -/
def casePreIncDec (st : St) (tree : Nat) (o : Obj) (ty : String) :
    St × Except Err Nat :=
  match o.right with
  | some r =>
    let st1 := setParent st r (.ref tree)
    incDecOp st1 true (ty = "++_") r
  | none => (st, .error (.typeErr "cannot set properties of undefined"))

/-- Transpose case (the operator implementations are external). -/
def caseTranspose (ev : EvalFn) (st : St) (tree : Nat) (o : Obj)
    (lcl : Bool) (fname : String) : St × Except Err Nat :=
  match o.left with
  | some l =>
    let st1 := setParent st l (.ref tree)
    match evalReduce ev st1 l lcl fname with
    | (st2, .error e) => (st2, .error e)
    | (st2, .ok _) => (st2, .error (.externErr "transpose not modelled"))
  | none => (st, .error (.typeErr "cannot set properties of undefined"))

/-- Postfix increment / decrement case. -/
def casePostIncDec (st : St) (tree : Nat) (o : Obj) (ty : String) :
    St × Except Err Nat :=
  match o.left with
  | some l =>
    let st1 := setParent st l (.ref tree)
    incDecOp st1 false (ty = "_++") l
  | none => (st, .error (.typeErr "cannot set properties of undefined"))

/-- Ending of the assignment case: a single target at the root of a
statement yields its `name = value` sub-result, several targets yield the
whole result list, and an assignment used as a sub-expression yields the
first sub-result's right-hand side. -/
def assignFinish (st5 : St) (tree resultList : Nat) : St × Except Err Nat :=
  match (hGet st5 tree).parent with
  | .ref p =>
    match (hGet st5 p).parent with
    | .jnull =>
      if (hGet st5 resultList).listF.length = 1 then
        (st5, .ok ((hGet st5 resultList).listF.getD 0 0))
      else (st5, .ok resultList)
    | _ =>
      match (hGet st5 resultList).listF.get? 0 with
      | some first =>
        match (hGet st5 first).right with
        | some rr => (st5, .ok rr)
        | none => (st5, .error (.externErr "assignment sub-result without right"))
      | none =>
        (st5, .error (.typeErr "cannot read properties of undefined (reading right)"))
  | .jnull => (st5, .error (.typeErr "cannot read properties of null (reading parent)"))
  | .undef => (st5, .error (.typeErr "cannot read properties of undefined (reading parent)"))

/-- Assignment case: link the sides, validate the left-hand side into
targets, reject compound multiple assignment, evaluate the right-hand side
under a try/catch that falls back to the unevaluated node, wrap it in a
return list capturing `tree.right`, then run the per-target loop and
produce the statement-position-dependent result. -/
def caseAssign (ev : EvalFn) (st : St) (tree : Nat) (o : Obj) (ty : String)
    (lcl : Bool) (fname : String) : St × Except Err Nat :=
  match o.left, o.right with
  | some l, some r =>
    let st1 := setParent (setParent st l (.ref tree)) r (.ref tree)
    match validateAssignment st1 l true with
    | .error e => (st1, .error e)
    | .ok assignment =>
      let op := ty.dropRight 1
      if assignment.length > 1 ∧ op ≠ "" then
        (st1, .error (.evalErr "computed multiple assignment not allowed."))
      else
        let (st2, res1) := ev st1 r false fname
        let (st3, rhsSrc) :=
          match res1 with
          | .ok v =>
            if (hGet st2 v).tag = .s "RETLIST" then
              (st2, (hGet st2 v).retSrc.getD r)
            else
              let (_w, s) := nodeReturnList st2 r
              (s, r)
          | .error _ =>
            let (_w, s) := nodeReturnList st2 r
            (s, r)
        let (resultList, st4) := nodeListFirst st3 none
        match assignTargets ev st4 tree op rhsSrc assignment 0 resultList lcl fname with
        | (st5, .error e) => (st5, .error e)
        | (st5, .ok _) => assignFinish st5 tree resultList
  | _, _ => (st, .error (.typeErr "cannot set properties of undefined"))

/-- NAME case: local frame first, then the name table; a zero-argument
entry is re-evaluated on every read, a function-valued entry fails with the
missing-arguments error, an absent name with the undefined error. -/
def caseName (ev : EvalFn) (st : St) (tree : Nat) (o : Obj)
    (lcl : Bool) (fname : String) : St × Except Err Nat :=
  match localLookup st lcl fname o.id with
  | some v =>
    let st1 := setParent st v (.ref tree)
    (st1, .ok v)
  | none =>
    match recFind st.nameTable o.id with
    | some en =>
      if en.args = [] then
        let st1 := setParent st en.expr (.ref tree)
        evalReduce ev st1 en.expr false ""
      else
        (st, .error (.evalErr ("calling " ++ o.id ++
          " function without arguments list.")))
    | none => (st, .error (.evalErr (o.id ++ " undefined.")))

/-- LIST case: allocate the result list node (parent `null` at the root),
then reduce the children in order. -/
def caseList (ev : EvalFn) (st : St) (tree : Nat) (o : Obj)
    (lcl : Bool) (fname : String) : St × Except Err Nat :=
  let rParent : JRef := match o.parent with
    | .jnull => .jnull
    | _ => .ref tree
  let (resultRef, st1) := halloc st { tag := .s "LIST", parent := rParent }
  match evalListItems ev st1 o.listF resultRef 0 lcl fname with
  | (st2, .error e) => (st2, .error e)
  | (st2, .ok _) => (st2, .ok resultRef)

/-- RANGE case: link and reduce the endpoints and the optional stride, then
expand to the enumerating tensor. -/
def caseRange (ev : EvalFn) (st : St) (tree : Nat) (o : Obj)
    (lcl : Bool) (fname : String) : St × Except Err Nat :=
  match o.startF, o.stopF with
  | some a, some b =>
    let st1 := setParent (setParent st a (.ref tree)) b (.ref tree)
    let st2 := match o.strideF with
      | some d => setParent st1 d (.ref tree)
      | none => st1
    match evalReduce ev st2 a lcl fname with
    | (st3, .error e) => (st3, .error e)
    | (st3, .ok va) =>
      match evalReduce ev st3 b lcl fname with
      | (st4, .error e) => (st4, .error e)
      | (st4, .ok vb) =>
        match o.strideF with
        | some d =>
          match evalReduce ev st4 d lcl fname with
          | (st5, .error e) => (st5, .error e)
          | (st5, .ok vd) => expandRange st5 va vb (some vd)
        | none => expandRange st4 va vb none
  | _, _ => (st, .error (.typeErr "cannot set properties of null"))

/-- ENDRANGE case: walk the `parent` chain to the first ARG node; `end`
then resolves against the name table entry of that node's callee — the
total linear length with exactly one subscript, otherwise the dimension
selected by the `index` property of the `end` node's direct parent. -/
def caseEndRange (st : St) (wfuel : Nat) (o : Obj) : St × Except Err Nat :=
  match walkParent st wfuel o.parent with
  | .error e => (st, .error e)
  | .ok (.ref p) =>
    let po := hGet st p
    match po.exprF with
    | none => (st, .error (.typeErr "cannot read properties of undefined (reading id)"))
    | some ex =>
      let eid := (hGet st ex).id
      match recFind st.nameTable eid with
      | some en =>
        if en.args = [] ∧ isTensorO (hGet st en.expr) then
          if po.argsF.length = 1 then
            let (c, st') := halloc st (mkNum (.int (linearLength (hGet st en.expr))))
            (st', .ok c)
          else
            match o.parent with
            | .ref pp =>
              match (hGet st pp).idx with
              | some ix =>
                let (c, st') := halloc st
                  (mkNum (.int (getDimension (hGet st en.expr) ix)))
                (st', .ok c)
              | none =>
                (st, .error (.externErr "getDimension with undefined index"))
            | _ => (st, .error (.typeErr "cannot read properties (reading index)"))
        else
          (st, .error (.syntaxErr
            "indeterminate end of range. The word end to refer a value is valid only in indexing."))
      | none =>
        (st, .error (.syntaxErr
          "indeterminate end of range. The word end to refer a value is valid only in indexing."))
  | .ok _ =>
    (st, .error (.syntaxErr
      "indeterminate end of range. The word end to refer a value is valid only in indexing."))

/-- Colon case: unlike ENDRANGE, only the direct parent is examined; when
it is an ARG node whose callee is a bound tensor variable, the colon
expands to the range from one to the linear length (one subscript) or to
the size of the dimension selected by the parent's `index`. -/
def caseColon (st : St) (o : Obj) : St × Except Err Nat :=
  match o.parent with
  | .ref p =>
    let po := hGet st p
    if po.tag = .s "ARG" then
      match po.exprF with
      | none => (st, .error (.typeErr "cannot read properties of undefined (reading id)"))
      | some ex =>
        let eid := (hGet st ex).id
        match recFind st.nameTable eid with
        | some en =>
          if en.args = [] ∧ isTensorO (hGet st en.expr) then
            if po.argsF.length = 1 then
              let (oneR, st1) := halloc st cdOne
              let (lenR, st2) := halloc st1
                (mkNum (.int (linearLength (hGet st1 en.expr))))
              expandRange st2 oneR lenR none
            else
              match (hGet st p).idx with
              | some ix =>
                let (oneR, st1) := halloc st cdOne
                let (dimR, st2) := halloc st1
                  (mkNum (.int (getDimension (hGet st1 en.expr) ix)))
                expandRange st2 oneR dimR none
              | none =>
                (st, .error (.externErr "getDimension with undefined index"))
          else
            (st, .error (.syntaxErr
              "indeterminate colon. The colon to refer a range is valid only in indexing."))
        | none =>
          (st, .error (.syntaxErr
            "indeterminate colon. The colon to refer a range is valid only in indexing."))
    else
      (st, .error (.syntaxErr
        "indeterminate colon. The colon to refer a range is valid only in indexing."))
  | .jnull => (st, .error (.typeErr "cannot read properties of null (reading type)"))
  | .undef => (st, .error (.typeErr "cannot read properties of undefined (reading type)"))

/-- Indexed read of a reduced tensor value (the shared shape of the
defined-name and literal-indexing branches of the ARG case): one subscript
may be a logical mask; several subscripts are evaluated with
`parent`/`index` linked. -/
def argGetIndexed (ev : EvalFn) (st : St) (tree : Nat) (temp : Nat)
    (idStr : String) (args : List Nat) (lcl : Bool) (fname : String) :
    St × Except Err Nat :=
  if args.length = 1 then
    match evalReduce ev st (args.getD 0 0) lcl fname with
    | (st1, .error e) => (st1, .error e)
    | (st1, .ok arg0) =>
      let a0 := hGet st1 arg0
      let fetch : St × Except Err Nat :=
        if isTensorO a0 ∧ a0.tag = .n numberClassLogical then
          getItemsLogical st1 temp idStr arg0
        else getItems st1 temp idStr [arg0]
      match fetch with
      | (st2, .error e) => (st2, .error e)
      | (st2, .ok result) => (setParent st2 result (.ref tree), .ok result)
  else
    match evalArgsIdx ev st tree args 0 lcl fname with
    | (st1, .error e) => (st1, .error e)
    | (st1, .ok vals) =>
      match getItems st1 temp idStr vals with
      | (st2, .error e) => (st2, .error e)
      | (st2, .ok result) => (setParent st2 result (.ref tree), .ok result)

/-- Built-in branch of the ARG case: argument bookkeeping (linking and
full or selective evaluation) and the mapper arity check are the source's;
executing the built-in implementation itself is external. -/
def caseArgBuiltin (ev : EvalFn) (st : St) (tree : Nat) (o : Obj)
    (bfe : BFE) (aliasTreeName : String) (lcl : Bool) (fname : String) :
    St × Except Err Nat :=
  if bfe.mapperDef then
    match evalArgsIdx ev st tree o.argsF 0 lcl fname with
    | (st1, .error e) => (st1, .error e)
    | (st1, .ok argVals) =>
      if bfe.mapper ∧ argVals.length ≠ 1 then
        (st1, .error (.evalErr ("Invalid call to " ++ aliasTreeName ++ ".")))
      else
        (st1, .error (.externErr "built-in function execution not modelled"))
  else
    match evalArgsSel ev st tree o.argsF bfe.ev 0 lcl fname with
    | (st1, .error e) => (st1, .error e)
    | (st1, .ok _) =>
      (st1, .error (.externErr "built-in function execution not modelled"))

/-- User-defined function call branch of the ARG case: exact arity, fresh
local frame keyed by the function name filled from the caller's context,
body reduced under the frame, frame deleted on normal completion. -/
def caseArgCall (ev : EvalFn) (st : St) (tree : Nat) (o : Obj)
    (en : NTEntry) (eid : String) (fname : String) : St × Except Err Nat :=
  if en.args.length ≠ o.argsF.length then
    (st, .error (.evalErr ("invalid number of arguments in function " ++ eid ++ ".")))
  else
    let st1 := { st with localTable := recSet st.localTable eid [] }
    match bindParams ev st1 tree eid en.args o.argsF 0 fname with
    | (st2, .error e) => (st2, .error e)
    | (st2, .ok _) =>
      match evalReduce ev st2 en.expr true eid with
      | (st3, .error e) => (st3, .error e)
      | (st3, .ok temp) =>
        ({ st3 with localTable := recDel st3.localTable eid }, .ok temp)

/-- Defined-name branch of the ARG case: re-evaluate the stored expression;
without arguments that value is the result, a tensor value is indexed, any
other value with arguments is invalid. -/
def caseArgDefined (ev : EvalFn) (st : St) (tree : Nat) (o : Obj)
    (en : NTEntry) (eid : String) (lcl : Bool) (fname : String) :
    St × Except Err Nat :=
  let st1 := setParent st en.expr (.ref tree)
  match evalReduce ev st1 en.expr false "" with
  | (st2, .error e) => (st2, .error e)
  | (st2, .ok temp) =>
    if o.argsF.length = 0 then (st2, .ok temp)
    else if isTensorO (hGet st2 temp) then
      argGetIndexed ev st2 tree temp eid o.argsF lcl fname
    else
      (st2, .error (.evalErr "invalid matrix indexing or function arguments."))

/-- ARG case: dispatch among base functions, local values, defined names
and user-defined functions when the callee is a NAME; otherwise literal
indexing through the plain-text rendering of the callee. -/
def caseArg (ev : EvalFn) (st : St) (tree : Nat) (o : Obj) (ufuel : Nat)
    (lcl : Bool) (fname : String) : St × Except Err Nat :=
  match o.exprF with
  | none => (st, .error (.evalErr (o.id ++ " undefined.")))
  | some ex =>
    let st0 := setParent st ex (.ref tree)
    let eo := hGet st0 ex
    if eo.tag = .s "NAME" then
      let aliasTreeName := aliasName st0 eo.id
      match recFind st0.baseFns aliasTreeName with
      | some bfe => caseArgBuiltin ev st0 tree o bfe aliasTreeName lcl fname
      | none =>
        match localLookup st0 lcl fname eo.id with
        | some v => (st0, .ok v)
        | none =>
          match recFind st0.nameTable eo.id with
          | some en =>
            if en.args = [] then caseArgDefined ev st0 tree o en eo.id lcl fname
            else caseArgCall ev st0 tree o en eo.id fname
          | none => (st0, .error (.evalErr (eo.id ++ " undefined.")))
    else
      argGetIndexed ev st0 tree ex (Unparse st0 ufuel (.ref ex)) o.argsF lcl fname

/-- CmdWList case: invoke the external command handler (side effects are
external), tag the exit status EXTERNAL, return the node unchanged. -/
def caseCmdWList (st : St) (tree : Nat) (o : Obj) : St × Except Err Nat :=
  if o.id ∈ st.cmdWListNames then
    ({ st with exitStatus := -2 }, .ok tree)
  else
    (st, .error (.typeErr "cannot read properties of undefined (reading func)"))

/-- The recursive dispatcher (`Evaluator` method), indexed by fuel.  Values
are identities (tensors through `evaluateTensor`); every node tag selects
its case in the source switch's order. -/
def Evaluator : Nat → St → Nat → Bool → String → St × Except Err Nat
  | 0, st, _, _, _ => (st, .error .fuelErr)
  | Nat.succ f, st, tree, lcl, fname =>
    let ev : EvalFn := fun s t l fn => Evaluator f s t l fn
    let o := hGet st tree
    if isNumberO o ∨ isStringO o then (st, .ok tree)
    else if isTensorO o then evaluateTensor st tree
    else
      match o.tag with
      | .n _ => (st, .error (.evalErr "evaluating undefined type."))
      | .s ty =>
        if binOpTags.contains ty then caseBinary ev st tree o ty lcl fname
        else if ty = "()" then caseParen ev st tree o lcl fname
        else if ty = "+_" ∨ ty = "-_" then caseUnaryPM ev st tree o ty lcl fname
        else if ty = "++_" ∨ ty = "--_" then casePreIncDec st tree o ty
        else if ty = ".'" ∨ ty = "'" then caseTranspose ev st tree o lcl fname
        else if ty = "_++" ∨ ty = "_--" then casePostIncDec st tree o ty
        else if asgOpTags.contains ty then caseAssign ev st tree o ty lcl fname
        else if ty = "NAME" then caseName ev st tree o lcl fname
        else if ty = "LIST" then caseList ev st tree o lcl fname
        else if ty = "RANGE" then caseRange ev st tree o lcl fname
        else if ty = "ENDRANGE" then caseEndRange st f o
        else if ty = ":" then caseColon st o
        else if ty = "ARG" then caseArg ev st tree o f lcl fname
        else if ty = "CmdWList" then caseCmdWList st tree o
        else (st, .error (.evalErr ("evaluating undefined type " ++ ty ++ ".")))

/-- Method `Evaluate`: public entry point; clears the exit status, marks the root
node's `parent` as `null`, runs the evaluator, and tags the exit status
EVAL_ERROR when the reduction aborts, re-raising the error. -/
def Evaluate (st : St) (tree : Nat) (fuel : Nat) : St × Except Err Nat :=
  let st1 := { st with exitStatus := 0 }
  let st2 := setParent st1 tree .jnull
  match Evaluator fuel st2 tree false "" with
  | (s, .ok v) => (s, .ok v)
  | (s, .error e) => ({ s with exitStatus := 3 }, .error e)

end MathJSLab

namespace MathJSLab

deriving instance DecidableEq for Except

/-! Auxiliary lemmas about the state operations, shared by the claim
theorems below. -/

/-- Updating a heap object leaves every table component unchanged. -/
theorem hMod_tables (st : St) (i : Nat) (f : Obj → Obj) :
    (hMod st i f).nameTable = st.nameTable ∧
    (hMod st i f).readonlyNameTable = st.readonlyNameTable ∧
    (hMod st i f).localTable = st.localTable ∧
    (hMod st i f).baseFns = st.baseFns := ⟨rfl, rfl, rfl, rfl⟩

/-- Linking a `parent` leaves the name table unchanged. -/
theorem nameTable_setParent (st : St) (i : Nat) (p : JRef) :
    (setParent st i p).nameTable = st.nameTable := rfl

/-- Linking a `parent` leaves the read-only list unchanged. -/
theorem readonly_setParent (st : St) (i : Nat) (p : JRef) :
    (setParent st i p).readonlyNameTable = st.readonlyNameTable := rfl

/-- Linking a `parent` leaves the alias table unchanged. -/
theorem aliasT_setParent (st : St) (i : Nat) (p : JRef) :
    (setParent st i p).aliasT = st.aliasT := rfl

/-- Linking a `parent` leaves the base function table unchanged. -/
theorem baseFns_setParent (st : St) (i : Nat) (p : JRef) :
    (setParent st i p).baseFns = st.baseFns := rfl

/-- Linking a `parent` leaves the local table unchanged. -/
theorem localTable_setParent (st : St) (i : Nat) (p : JRef) :
    (setParent st i p).localTable = st.localTable := rfl

/-- Reading another object after a heap update sees the old object. -/
theorem hGet_hSet_ne (st : St) (i j : Nat) (o : Obj) (h : j ≠ i) :
    hGet (hSet st i o) j = hGet st j := by
  unfold hGet hSet
  simp only []
  rcases Nat.lt_or_ge i st.heap.length with hi | hi
  · rw [List.getD_eq_getElem?_getD, List.getD_eq_getElem?_getD,
      List.getElem?_set_ne (by omega)]
  · rw [List.set_eq_of_length_le (by omega)]

/-- Reading the updated object after a heap update in bounds. -/
theorem hGet_hSet_eq (st : St) (i : Nat) (o : Obj) (h : i < st.heap.length) :
    hGet (hSet st i o) i = o := by
  unfold hGet hSet
  rw [List.getD_eq_getElem?_getD, List.getElem?_set_self (by omega)]
  simp

/-- Reading another object after linking a `parent`. -/
theorem hGet_setParent_ne (st : St) (i j : Nat) (p : JRef) (h : j ≠ i) :
    hGet (setParent st i p) j = hGet st j :=
  hGet_hSet_ne _ _ _ _ h

/-- Reading the linked object after linking its `parent`. -/
theorem hGet_setParent_eq (st : St) (i : Nat) (p : JRef) (h : i < st.heap.length) :
    hGet (setParent st i p) i = { hGet st i with parent := p } :=
  hGet_hSet_eq _ _ _ h

/-- Record update on a key finds the new value. -/
theorem recFind_recSet_eq {α : Type} (t : List (String × α)) (k : String) (v : α) :
    recFind (recSet t k v) k = some v := by
  induction t with
  | nil => simp [recSet, recFind]
  | cons hd tl ih =>
    by_cases h : hd.1 = k
    · simp [recSet, h, recFind]
    · cases hd
      simp_all [recSet, h, recFind]

/-- Record update on a key leaves other keys unchanged. -/
theorem recFind_recSet_ne {α : Type} (t : List (String × α)) (k : String)
    (v : α) (n : String) (h : n ≠ k) :
    recFind (recSet t k v) n = recFind t n := by
  induction t with
  | nil =>
    have hkn : ¬ (k = n) := fun e => h e.symm
    simp [recSet, recFind, hkn]
  | cons hd tl ih =>
    cases hd with
    | mk k0 v0 =>
      by_cases hk : k0 = k
      · subst hk
        have hne : ¬ (k0 = n) := fun e => h e.symm
        simp [recSet, recFind, hne]
      · by_cases hn : k0 = n
        · have hnk : ¬ (n = k) := h
          simp [recSet, recFind, hk, hn, hnk]
        · simp [recSet, recFind, hk, hn, ih]

/-- Unfolding of record deletion over a head entry. -/
theorem recDel_cons {α : Type} (k0 : String) (v0 : α) (tl : List (String × α))
    (k : String) :
    recDel ((k0, v0) :: tl) k =
      if k0 = k then recDel tl k else (k0, v0) :: recDel tl k := by
  by_cases h : k0 = k <;> simp [recDel, List.filter, h]

/-- Record deletion removes exactly the deleted key. -/
theorem recFind_recDel {α : Type} (t : List (String × α)) (k n : String) :
    recFind (recDel t k) n = if n = k then none else recFind t n := by
  induction t with
  | nil => simp [recDel, recFind]
  | cons hd tl ih =>
    cases hd with
    | mk k0 v0 =>
      rw [recDel_cons]
      by_cases hk : k0 = k
      · subst hk
        by_cases hn : n = k0
        · subst hn
          simp [recFind, ih]
        · have h2 : ¬ (k0 = n) := fun e => hn e.symm
          simp [recFind, hn, h2, ih]
      · by_cases hn : n = k0
        · have hnk : ¬ (n = k) := by rw [hn]; exact hk
          simp [recFind, hk, hn, hnk, ih]
        · have h2 : ¬ (k0 = n) := fun e => hn e.symm
          simp [recFind, hk, h2, ih]

end MathJSLab

namespace MathJSLab

/-- Clearing one name never changes the read-only list. -/
theorem clearOne_readonly (s : St) (nm : String) :
    (clearOne s nm).readonlyNameTable = s.readonlyNameTable := by
  unfold clearOne
  split <;> rfl

/-- Lookup after clearing one name: removed exactly when it is that name
and the name is not read-only. -/
theorem clearOne_lookup (s : St) (nm n : String) :
    recFind (clearOne s nm).nameTable n =
      if n = nm ∧ nm ∉ s.readonlyNameTable then none
      else recFind s.nameTable n := by
  by_cases h : nm ∈ s.readonlyNameTable
  · simp [clearOne, h]
  · by_cases hn : n = nm <;> simp [clearOne, h, hn, recFind_recDel]

/-- The fold of `clearOne` never changes the read-only list. -/
theorem clearFold_readonly (names : List String) (s : St) :
    (names.foldl clearOne s).readonlyNameTable = s.readonlyNameTable := by
  induction names generalizing s with
  | nil => rfl
  | cons nm rest ih => rw [List.foldl_cons, ih, clearOne_readonly]

/-- Lookup after the fold of `clearOne` over a list of names. -/
theorem clearFold_lookup (names : List String) (s : St) (n : String) :
    recFind ((names.foldl clearOne s).nameTable) n =
      if n ∈ names ∧ n ∉ s.readonlyNameTable then none
      else recFind s.nameTable n := by
  induction names generalizing s with
  | nil => simp
  | cons nm rest ih =>
    rw [List.foldl_cons, ih, clearOne_readonly, clearOne_lookup]
    by_cases hro : n ∈ s.readonlyNameTable
    · by_cases hnm : n = nm
      · subst hnm
        simp [hro]
      · simp [hro, hnm]
    · by_cases hnm : n = nm
      · subst hnm
        simp [hro]
      · by_cases hrest : n ∈ rest
        · simp [hro, hrest, hnm]
        · simp [hro, hrest, hnm]

end MathJSLab

namespace MathJSLab

/-! Claim theorems. -/

/-- Fresh interpreter state with one ordinary user binding `u` added
(reference 0 points at the `false` constant object; only the table shape
matters here). -/
def c9State : St :=
  { initSt with nameTable := recSet initSt.nameTable "u" { args := [], expr := 0 } }

/-- C9: `Clear` with one or more names removes the bindings of exactly the
listed non-read-only names and leaves every other name-table entry
unchanged (read-only names are never removed); `Clear` with no names
resets the name table to the initial seeded state. -/
theorem C9_clear_thm :
    (∀ (st : St) (names : List String) (n : String), names ≠ [] →
      recFind (Clear st names).nameTable n =
        if n ∈ names ∧ n ∉ st.readonlyNameTable then none
        else recFind st.nameTable n) ∧
    (Clear c9State []).nameTable = initSt.nameTable := by
  constructor
  · intro st names n h
    unfold Clear
    rw [if_neg h, clearFold_lookup]
  · decide

/-- Witness for C9: clearing `u` and `pi` from a state with the user
binding `u` removes `u` and leaves the read-only `pi` untouched. -/
theorem C9_clear_wit :
    recFind (Clear c9State ["u", "pi"]).nameTable "u" = none ∧
    recFind (Clear c9State ["u", "pi"]).nameTable "pi" =
      recFind c9State.nameTable "pi" := by
  have h := C9_clear_thm.1 c9State ["u", "pi"]
  refine ⟨?_, ?_⟩
  · rw [h "u" (by decide)]
    decide
  · rw [h "pi" (by decide)]
    decide

end MathJSLab

namespace MathJSLab

/-- Linking a `parent` preserves the heap length. -/
theorem heapLen_setParent (st : St) (i : Nat) (p : JRef) :
    (setParent st i p).heap.length = st.heap.length := by
  simp [setParent, hMod, hSet]

/-- Core of the read-only protection: an assignment node (plain `=` or any
compound form) whose left side is a NAME in the read-only list fails in
`validateAssignment` before the right side is evaluated, leaving the name
table untouched. -/
theorem caseAssign_readonly_core (f : Nat) (st : St) (t l r : Nat)
    (ty id : String) (lcl : Bool) (fn : String)
    (hT : hGet st t = { tag := .s ty, left := some l, right := some r })
    (hL : hGet st l = { tag := .s "NAME", id := id })
    (hRO : id ∈ st.readonlyNameTable)
    (hlr : l ≠ r) (hlen : l < st.heap.length)
    (hbin : ty ∉ binOpTags)
    (hasg : ty ∈ asgOpTags)
    (h1 : ty ≠ "()") (h2 : ty ≠ "+_") (h3 : ty ≠ "-_") (h4 : ty ≠ "++_")
    (h5 : ty ≠ "--_") (h6 : ty ≠ ".'") (h7 : ty ≠ "'") (h8 : ty ≠ "_++")
    (h9 : ty ≠ "_--") :
    (Evaluator (Nat.succ f) st t lcl fn).2 =
      .error (.evalErr
        ("invalid left hand side of assignment: cannot assign to a read only value: "
          ++ id ++ ".")) ∧
    (Evaluator (Nat.succ f) st t lcl fn).1.nameTable = st.nameTable := by
  have hlen' : l < (setParent st l (.ref t)).heap.length := by
    rw [heapLen_setParent]
    exact hlen
  have hgl : hGet (setParent (setParent st l (.ref t)) r (.ref t)) l =
      { tag := .s "NAME", id := id, parent := .ref t } := by
    rw [hGet_setParent_ne _ _ _ _ hlr, hGet_setParent_eq _ _ _ hlen, hL]
  simp [Evaluator, caseAssign, validateAssignment, validateOne, hT, hgl, hRO,
    hbin, hasg, h1, h2, h3, h4, h5, h6, h7, h8, h9, nameTable_setParent,
    readonly_setParent, isNumberO, isStringO, isTensorO, Except.map]

end MathJSLab

namespace MathJSLab

/-- C4: every assignment targeting a read-only name — plain or indexed,
with or without a compound operator — fails with an EvalError raised by
`validateAssignment` before any mutation, so the name table is unchanged
afterwards; and `Clear` with names never removes a read-only name. -/
theorem C4_readonly_thm :
    (∀ (st : St) (t : Nat) (id : String),
      hGet st t = { tag := .s "NAME", id := id } →
      id ∈ st.readonlyNameTable →
      validateAssignment st t true = .error (.evalErr
        ("invalid left hand side of assignment: cannot assign to a read only value: "
          ++ id ++ "."))) ∧
    (∀ (st : St) (t le : Nat) (id : String) (args : List Nat),
      hGet st t = { tag := .s "ARG", exprF := some le, argsF := args } →
      hGet st le = { tag := .s "NAME", id := id } →
      id ∈ st.readonlyNameTable →
      validateAssignment st t true = .error (.evalErr
        ("invalid left hand side of assignment: cannot assign to a read only value: "
          ++ id ++ "."))) ∧
    (∀ (f : Nat) (st : St) (t l r : Nat) (ty id : String) (lcl : Bool) (fn : String),
      hGet st t = { tag := .s ty, left := some l, right := some r } →
      hGet st l = { tag := .s "NAME", id := id } →
      id ∈ st.readonlyNameTable →
      l ≠ r → l < st.heap.length → ty ∈ asgOpTags →
      (Evaluator (Nat.succ f) st t lcl fn).2 = .error (.evalErr
        ("invalid left hand side of assignment: cannot assign to a read only value: "
          ++ id ++ ".")) ∧
      (Evaluator (Nat.succ f) st t lcl fn).1.nameTable = st.nameTable) ∧
    (∀ (st : St) (names : List String) (id : String),
      id ∈ st.readonlyNameTable → names ≠ [] →
      recFind (Clear st names).nameTable id = recFind st.nameTable id) := by
  refine ⟨?_, ?_, ?_, ?_⟩
  · intro st t id hT hRO
    simp [validateAssignment, validateOne, hT, hRO, Except.map]
  · intro st t le id args hT hL hRO
    simp [validateAssignment, validateOne, hT, hL, hRO, Except.map]
  · intro f st t l r ty id lcl fn hT hL hRO hlr hlen hasg
    simp only [asgOpTags, List.mem_cons, List.not_mem_nil, or_false] at hasg
    rcases hasg with h|h|h|h|h|h|h|h|h|h|h|h|h|h|h <;> subst h <;>
      exact caseAssign_readonly_core f st t l r _ id lcl fn hT hL hRO hlr hlen
        (by decide) (by decide) (by decide) (by decide) (by decide) (by decide)
        (by decide) (by decide) (by decide) (by decide) (by decide)
  · intro st names id hRO hne
    unfold Clear
    rw [if_neg hne, clearFold_lookup]
    simp [hRO]

/-- State for the C4 witness: node 0 is `NAME pi`, node 1 a numeric
literal, node 2 the assignment `pi = 3`, node 3 the indexed left side
`pi(3)`; `pi` is read-only. -/
def c4State : St :=
  { heap := [ { tag := .s "NAME", id := "pi" },
              mkNum (.int 3),
              { tag := .s "=", left := some 0, right := some 1 },
              { tag := .s "ARG", exprF := some 0, argsF := [1] } ],
    nameTable := [("pi", { args := [], expr := 0 })],
    readonlyNameTable := ["pi"] }

/-- Witness for C4: assigning to `pi` plainly or through an index fails
with the read-only EvalError and the `pi` binding is unchanged, and
clearing `pi` by name does not remove it. -/
theorem C4_readonly_wit :
    validateAssignment c4State 0 true = .error (.evalErr
      ("invalid left hand side of assignment: cannot assign to a read only value: "
        ++ "pi" ++ ".")) ∧
    validateAssignment c4State 3 true = .error (.evalErr
      ("invalid left hand side of assignment: cannot assign to a read only value: "
        ++ "pi" ++ ".")) ∧
    (Evaluator (Nat.succ 5) c4State 2 false "").2 = .error (.evalErr
      ("invalid left hand side of assignment: cannot assign to a read only value: "
        ++ "pi" ++ ".")) ∧
    (Evaluator (Nat.succ 5) c4State 2 false "").1.nameTable = c4State.nameTable ∧
    recFind (Clear c4State ["pi"]).nameTable "pi" =
      recFind c4State.nameTable "pi" := by
  have h3 := C4_readonly_thm.2.2.1 5 c4State 2 0 1 "=" "pi" false ""
    (by decide) (by decide) (by decide) (by decide) (by decide) (by decide)
  refine ⟨?_, ?_, h3.1, h3.2, ?_⟩
  · exact C4_readonly_thm.1 c4State 0 "pi" (by decide) (by decide)
  · exact C4_readonly_thm.2.1 c4State 3 0 "pi" [1] (by decide) (by decide) (by decide)
  · exact C4_readonly_thm.2.2.2 c4State ["pi"] "pi" (by decide) (by decide)

end MathJSLab

namespace MathJSLab

/-- State for C10: reference 0 holds the value of `x` (an integer scalar),
reference 1 the NAME node `x`, reference 2 the increment / decrement
operator node with `x` as operand. -/
def c10St (z : Int) (op : String) : St :=
  { heap := [ mkNum (.int z),
              { tag := .s "NAME", id := "x" },
              { tag := .s op, right := some 1, left := some 1 } ],
    nameTable := [("x", { args := [], expr := 0 })] }

/-- State for C10's invalid-operand part: the operand of the increment is
a numeric literal, not a NAME node. -/
def c10BadSt : St :=
  { heap := [ mkNum (.int 7),
              { tag := .s "++_", right := some 0 } ] }

/-- C10: with a NAME operand bound to a value in the name table, prefix
`++x` stores `x+1` and returns the new stored value, `--x` stores `x-1`;
postfix `x++` returns a copy of the prior value (unaffected by the store)
and stores `x+1`, `x--` stores `x-1`; a non-NAME operand fails with a
SyntaxError. -/
theorem C10_incdec_thm (z : Int) :
    ((Evaluator 1 (c10St z "++_") 2 false "").2 = .ok 4 ∧
      (hGet (Evaluator 1 (c10St z "++_") 2 false "").1 4).re = .int (z + 1) ∧
      (recFind (Evaluator 1 (c10St z "++_") 2 false "").1.nameTable "x").map
        (fun en => (hGet (Evaluator 1 (c10St z "++_") 2 false "").1 en.expr).re)
        = some (.int (z + 1))) ∧
    ((Evaluator 1 (c10St z "--_") 2 false "").2 = .ok 4 ∧
      (hGet (Evaluator 1 (c10St z "--_") 2 false "").1 4).re = .int (z - 1)) ∧
    ((Evaluator 1 (c10St z "_++") 2 false "").2 = .ok 3 ∧
      (hGet (Evaluator 1 (c10St z "_++") 2 false "").1 3).re = .int z ∧
      (recFind (Evaluator 1 (c10St z "_++") 2 false "").1.nameTable "x").map
        (fun en => (hGet (Evaluator 1 (c10St z "_++") 2 false "").1 en.expr).re)
        = some (.int (z + 1))) ∧
    ((Evaluator 1 (c10St z "_--") 2 false "").2 = .ok 3 ∧
      (hGet (Evaluator 1 (c10St z "_--") 2 false "").1 3).re = .int z ∧
      (recFind (Evaluator 1 (c10St z "_--") 2 false "").1.nameTable "x").map
        (fun en => (hGet (Evaluator 1 (c10St z "_--") 2 false "").1 en.expr).re)
        = some (.int (z - 1))) ∧
    (Evaluator 1 c10BadSt 1 false "").2 =
      .error (.syntaxErr "invalid increment variable.") :=
  ⟨⟨rfl, rfl, rfl⟩, ⟨rfl, rfl⟩, ⟨rfl, rfl, rfl⟩, ⟨rfl, rfl, rfl⟩, rfl⟩

end MathJSLab

namespace MathJSLab

/-- C7 counterexample: rendering the `null` tree with the debug flag set
makes `unparserML` propagate the internal TypeError to the caller instead
of substituting the error placeholder, contradicting the claim that any
failure during rendering is caught for every input tree. -/
theorem C7_unparser_cex :
    unparserML ({} : St) true 1 .jnull =
      .error "TypeError: cannot read properties of null" := by decide

/-- C7 (amended): `Unparse` never propagates an internal failure (the
`null` tree renders as the `<ERROR>` placeholder), and `unparserML` never
propagates one when the debug flag is unset — any level's failure becomes
the `<mi>error</mi>` placeholder; with the debug flag set the failure is
rethrown (see the counterexample). -/
theorem C7_unparser_thm :
    (∀ (st : St) (f : Nat) (r : JRef), ∃ s, unparserML st false f r = .ok s) ∧
    (∀ (st : St) (f : Nat), unparserML st false f .jnull = .ok "<mi>error</mi>") ∧
    (∀ (st : St) (f : Nat), Unparse st f .jnull = "<ERROR>") := by
  have hok : ∀ (st : St) (f : Nat) (r : JRef), ∃ s, unparserML st false f r = .ok s := by
    intro st f r
    cases f with
    | zero => exact ⟨"<mi>error</mi>", rfl⟩
    | succ n =>
      cases hb : unparserMLBody st (fun c => unparserML st false n c) r with
      | ok s => exact ⟨s, by simp [unparserML, hb]⟩
      | error e => exact ⟨"<mi>error</mi>", by simp [unparserML, hb]⟩
  refine ⟨hok, ?_, ?_⟩
  · intro st f
    cases f with
    | zero => rfl
    | succ n => simp [unparserML, unparserMLBody]
  · intro st f
    cases f <;> rfl

end MathJSLab

namespace MathJSLab

/-- State for the C6 counterexample: `f` is bound in the name table as a
user-defined function (one parameter), and node 2 reads the bare NAME `f`. -/
def c6St : St :=
  { heap := [ { tag := .s "NAME", id := "x" },
              { tag := .s "NAME", id := "x" },
              { tag := .s "NAME", id := "f" } ],
    nameTable := [("f", { args := [0], expr := 1 })] }

/-- C6 counterexample: reading a NAME bound as a user-defined function
fails with the calling-without-arguments EvalError, not with the
undefined-identifier error the claim assigns to every non-variable case. -/
theorem C6_name_cex :
    (Evaluator 1 c6St 2 false "").2 =
      .error (.evalErr "calling f function without arguments list.") ∧
    (Evaluator 1 c6St 2 false "").2 ≠
      .error (.evalErr ("f" ++ " undefined.")) := by decide

/-- C6 (amended): evaluating a NAME node returns the local binding of the
active call frame when one exists; otherwise a zero-argument name-table
entry is re-evaluated (in the default context) on every read with nothing
written back to the table beyond that inner evaluation — in particular an
already-reduced stored value is returned with the name table unchanged;
a name bound as a function fails with the calling-without-arguments
EvalError; an absent name fails with the undefined-identifier error. -/
theorem C6_name_thm :
    (∀ (f : Nat) (st : St) (t v : Nat) (id fn : String) (pr : JRef)
      (ix : Option Nat) (fr : List (String × Nat)),
      hGet st t = { tag := .s "NAME", id := id, parent := pr, idx := ix } →
      recFind st.localTable fn = some fr →
      recFind fr id = some v →
      Evaluator (Nat.succ f) st t true fn = (setParent st v (.ref t), .ok v)) ∧
    (∀ (f : Nat) (st : St) (t e : Nat) (id fn : String) (pr : JRef)
      (ix : Option Nat) (lcl : Bool),
      hGet st t = { tag := .s "NAME", id := id, parent := pr, idx := ix } →
      localLookup st lcl fn id = none →
      recFind st.nameTable id = some { args := [], expr := e } →
      Evaluator (Nat.succ f) st t lcl fn =
        evalReduce (fun s t2 l2 n2 => Evaluator f s t2 l2 n2)
          (setParent st e (.ref t)) e false "") ∧
    (∀ (f : Nat) (st : St) (t e : Nat) (id fn : String) (pr : JRef)
      (ix : Option Nat) (lcl : Bool) (z : Int),
      hGet st t = { tag := .s "NAME", id := id, parent := pr, idx := ix } →
      localLookup st lcl fn id = none →
      recFind st.nameTable id = some { args := [], expr := e } →
      hGet (setParent st e (.ref t)) e = { mkNum (.int z) with parent := .ref t } →
      (Evaluator (Nat.succ (Nat.succ f)) st t lcl fn).2 = .ok e ∧
      (Evaluator (Nat.succ (Nat.succ f)) st t lcl fn).1.nameTable = st.nameTable) ∧
    (∀ (f : Nat) (st : St) (t e p0 : Nat) (ps : List Nat) (id fn : String)
      (pr : JRef) (ix : Option Nat) (lcl : Bool),
      hGet st t = { tag := .s "NAME", id := id, parent := pr, idx := ix } →
      localLookup st lcl fn id = none →
      recFind st.nameTable id = some { args := p0 :: ps, expr := e } →
      Evaluator (Nat.succ f) st t lcl fn =
        (st, .error (.evalErr ("calling " ++ id ++
          " function without arguments list.")))) ∧
    (∀ (f : Nat) (st : St) (t : Nat) (id fn : String) (pr : JRef)
      (ix : Option Nat) (lcl : Bool),
      hGet st t = { tag := .s "NAME", id := id, parent := pr, idx := ix } →
      localLookup st lcl fn id = none →
      recFind st.nameTable id = none →
      Evaluator (Nat.succ f) st t lcl fn =
        (st, .error (.evalErr (id ++ " undefined.")))) := by
  refine ⟨?_, ?_, ?_, ?_, ?_⟩
  · intro f st t v id fn pr ix fr hT hfr hv
    simp [Evaluator, caseName, localLookup, hT, hfr, hv, isNumberO, isStringO,
      isTensorO, binOpTags, asgOpTags]
  · intro f st t e id fn pr ix lcl hT hloc hen
    simp [Evaluator, caseName, hT, hloc, hen, isNumberO, isStringO,
      isTensorO, binOpTags, asgOpTags]
  · intro f st t e id fn pr ix lcl z hT hloc hen hE
    have h2 : Evaluator (Nat.succ (Nat.succ f)) st t lcl fn =
        evalReduce (fun s t2 l2 n2 => Evaluator (Nat.succ f) s t2 l2 n2)
          (setParent st e (.ref t)) e false "" := by
      simp [Evaluator, caseName, hT, hloc, hen, isNumberO, isStringO,
        isTensorO, binOpTags, asgOpTags]
    rw [h2]
    simp [evalReduce, Evaluator, hE, isNumberO, isStringO, isTensorO, mkNum,
      reduceIfReturnList, nameTable_setParent]
  · intro f st t e p0 ps id fn pr ix lcl hT hloc hen
    simp [Evaluator, caseName, hT, hloc, hen, isNumberO, isStringO,
      isTensorO, binOpTags, asgOpTags]
  · intro f st t id fn pr ix lcl hT hloc hen
    simp [Evaluator, caseName, hT, hloc, hen, isNumberO, isStringO,
      isTensorO, binOpTags, asgOpTags]

end MathJSLab

namespace MathJSLab

/-- State for the C6 witness, local-frame part: the frame of function `g`
binds `z` to the scalar at reference 0; node 1 is `NAME z`. -/
def c6LocSt : St :=
  { heap := [ mkNum (.int 5), { tag := .s "NAME", id := "z" } ],
    localTable := [("g", [("z", 0)])] }

/-- State for the C6 witness, name-table parts: `a` is bound to the scalar
at reference 0; node 1 is `NAME a`. -/
def c6VarSt : St :=
  { heap := [ mkNum (.int 7), { tag := .s "NAME", id := "a" } ],
    nameTable := [("a", { args := [], expr := 0 })] }

/-- Witness for C6: a local binding is returned; a zero-argument entry is
re-read returning the stored value with the name table unchanged; a
function-valued name errors with the calling-without-arguments message;
an absent name errors with the undefined message. -/
theorem C6_name_wit :
    Evaluator 1 c6LocSt 1 true "g" = (setParent c6LocSt 0 (.ref 1), .ok 0) ∧
    ((Evaluator 2 c6VarSt 1 false "").2 = .ok 0 ∧
      (Evaluator 2 c6VarSt 1 false "").1.nameTable = c6VarSt.nameTable) ∧
    Evaluator 1 c6St 2 false "" =
      (c6St, .error (.evalErr ("calling " ++ "f" ++
        " function without arguments list."))) ∧
    Evaluator 1 c6LocSt 1 false "" =
      (c6LocSt, .error (.evalErr ("z" ++ " undefined."))) := by
  refine ⟨?_, ?_, ?_, ?_⟩
  · exact C6_name_thm.1 0 c6LocSt 1 0 "z" "g" .undef none [("z", 0)]
      (by decide) (by decide) (by decide)
  · exact C6_name_thm.2.2.1 0 c6VarSt 1 0 "a" "" .undef none false 7
      (by decide) (by decide) (by decide) (by decide)
  · exact C6_name_thm.2.2.2.1 0 c6St 2 1 0 [] "f" "" .undef none false
      (by decide) (by decide) (by decide)
  · exact C6_name_thm.2.2.2.2 0 c6LocSt 1 "z" "" .undef none false
      (by decide) (by decide) (by decide)

end MathJSLab

namespace MathJSLab

/-- State for C5: `f` is the user-defined identity function (parameter
node 0, body node 1); node 4 is the call `f(<z>)` with the literal
argument at node 3. -/
def c5St (z : Int) : St :=
  { heap := [ { tag := .s "NAME", id := "x" },
              { tag := .s "NAME", id := "x" },
              { tag := .s "NAME", id := "f" },
              mkNum (.int z),
              { tag := .s "ARG", exprF := some 2, argsF := [3] } ],
    nameTable := [("f", { args := [0], expr := 1 })] }

/-- State for C5, caller-context part: the call `f(y)` occurs inside the
running function `g`, whose local frame binds `y` to the scalar at
reference 5. -/
def c5CallerSt (z : Int) : St :=
  { heap := [ { tag := .s "NAME", id := "x" },
              { tag := .s "NAME", id := "x" },
              { tag := .s "NAME", id := "f" },
              { tag := .s "NAME", id := "y" },
              { tag := .s "ARG", exprF := some 2, argsF := [3] },
              mkNum (.int z) ],
    nameTable := [("f", { args := [0], expr := 1 })],
    localTable := [("g", [("y", 5)])] }

/-- C5: calling a user-defined function fails with the arity EvalError
unless the argument count equals the parameter count (proved for every
state whose call node resolves to a name-table function not shadowed by a
base function or a local value); when the arity matches, the arguments are
reduced in the caller's local context, bound into a fresh frame keyed by
the function name, the body is reduced under that frame, and the frame is
discarded — demonstrated by the identity function applied to a literal and
to a caller-local variable, for every integer payload. -/
theorem C5_call_thm :
    (∀ (f : Nat) (st : St) (t ex body : Nat) (args ps : List Nat) (p0 : Nat)
      (id fn : String) (pr pe : JRef) (ix ixe : Option Nat) (lcl : Bool),
      hGet st t = { tag := .s "ARG", exprF := some ex, argsF := args, parent := pr, idx := ix } →
      hGet st ex = { tag := .s "NAME", id := id, parent := pe, idx := ixe } →
      ex < st.heap.length →
      recFind st.aliasT id = none →
      recFind st.baseFns id = none →
      localLookup st lcl fn id = none →
      recFind st.nameTable id = some { args := p0 :: ps, expr := body } →
      (p0 :: ps).length ≠ args.length →
      Evaluator (Nat.succ f) st t lcl fn =
        (setParent st ex (.ref t), .error (.evalErr
          ("invalid number of arguments in function " ++ id ++ ".")))) ∧
    (∀ z : Int,
      (Evaluator 3 (c5St z) 4 false "").2 = .ok 3 ∧
      (hGet (Evaluator 3 (c5St z) 4 false "").1 3).re = .int z ∧
      recFind (Evaluator 3 (c5St z) 4 false "").1.localTable "f" = none) ∧
    (∀ z : Int,
      (Evaluator 3 (c5CallerSt z) 4 true "g").2 = .ok 5 ∧
      (hGet (Evaluator 3 (c5CallerSt z) 4 true "g").1 5).re = .int z ∧
      recFind (Evaluator 3 (c5CallerSt z) 4 true "g").1.localTable "f" = none ∧
      recFind (Evaluator 3 (c5CallerSt z) 4 true "g").1.localTable "g" =
        some [("y", 5)]) := by
  refine ⟨?_, ?_, ?_⟩
  · intro f st t ex body args ps p0 id fn pr pe ix ixe lcl hT hEx hlen hAl hBF
      hloc hen harity
    have hgex : hGet (setParent st ex (.ref t)) ex =
        { tag := .s "NAME", id := id, parent := .ref t, idx := ixe } := by
      rw [hGet_setParent_eq _ _ _ hlen, hEx]
    have hloc' : localLookup (setParent st ex (.ref t)) lcl fn id = none := by
      simpa [localLookup, setParent, hMod, hSet] using hloc
    simp [Evaluator, caseArg, caseArgCall, aliasName, hT, hgex, hAl, hBF,
      hloc', hen, harity, isNumberO, isStringO, isTensorO, binOpTags,
      asgOpTags, nameTable_setParent, aliasT_setParent, baseFns_setParent]
    intro h
    exact absurd h (by simpa using harity)
  · intro z
    exact ⟨rfl, rfl, rfl⟩
  · intro z
    exact ⟨rfl, rfl, rfl, rfl⟩

end MathJSLab

namespace MathJSLab

/-- State for the C5 witness: the call `f(1, 1)` against the one-parameter
function `f`. -/
def c5AritySt : St :=
  { heap := [ { tag := .s "NAME", id := "x" },
              { tag := .s "NAME", id := "x" },
              { tag := .s "NAME", id := "f" },
              mkNum (.int 1),
              { tag := .s "ARG", exprF := some 2, argsF := [3, 3] } ],
    nameTable := [("f", { args := [0], expr := 1 })] }

/-- Witness for C5: calling the one-parameter function `f` with two
arguments fails with the arity EvalError. -/
theorem C5_call_wit :
    Evaluator 1 c5AritySt 4 false "" =
      (setParent c5AritySt 2 (.ref 4), .error (.evalErr
        ("invalid number of arguments in function " ++ "f" ++ "."))) :=
  C5_call_thm.1 0 c5AritySt 4 2 1 [3, 3] [] 0 "f" "" .undef .undef none none
    false (by decide) (by decide) (by decide) (by decide) (by decide)
    (by decide) (by decide) (by decide)

end MathJSLab

namespace MathJSLab

/-- State for C3: the statement `x = y` with both tables empty — node 0 is
`NAME x`, node 1 is `NAME y` (unbound, so the right side fails), node 2 the
assignment. -/
def c3St (x y : String) : St :=
  { heap := [ { tag := .s "NAME", id := x },
              { tag := .s "NAME", id := y },
              { tag := .s "=", left := some 0, right := some 1 } ] }

/-- C3: a plain-name assignment whose right-hand side fails to evaluate
stores the target with the unevaluated right-hand expression and re-raises
the triggering error.  The first part is general: whenever both right-side
evaluations fail (the try around the right side and the per-target one),
the result state binds the name to the unevaluated right node and the
second error is re-raised.  The second part runs `x = y` with `y` unbound
for every pair of names. -/
theorem C3_failedassign_thm :
    (∀ (f : Nat) (st s1 s2 : St) (t l r : Nat) (x fn : String)
      (pr pl : JRef) (ix il : Option Nat) (lcl : Bool) (e1 e2 : Err),
      hGet st t = { tag := .s "=", left := some l, right := some r, parent := pr, idx := ix } →
      hGet st l = { tag := .s "NAME", id := x, parent := pl, idx := il } →
      x ∉ st.readonlyNameTable →
      l ≠ r → l < st.heap.length →
      Evaluator f (setParent (setParent st l (.ref t)) r (.ref t)) r false fn
        = (s1, .error e1) →
      Evaluator f
        (setParent (nodeListFirst (nodeReturnList s1 r).2 none).2 r (.ref r))
        r false "" = (s2, .error e2) →
      Evaluator (Nat.succ f) st t lcl fn =
        ({ s2 with nameTable := recSet s2.nameTable x { args := [], expr := r } },
          .error e2)) ∧
    (∀ x y : String,
      (Evaluator 2 (c3St x y) 2 false "").2 =
        .error (.evalErr (y ++ " undefined.")) ∧
      (Evaluator 2 (c3St x y) 2 false "").1.nameTable =
        [(x, { args := [], expr := 1 })]) := by
  refine ⟨?_, ?_⟩
  · intro f st s1 s2 t l r x fn pr pl ix il lcl e1 e2 hT hL hRO hlr hlen h1 h2
    have hgl : hGet (setParent (setParent st l (.ref t)) r (.ref t)) l =
        { tag := .s "NAME", id := x, parent := .ref t, idx := il } := by
      rw [hGet_setParent_ne _ _ _ _ hlr, hGet_setParent_eq _ _ _ hlen, hL]
    have hRO' : x ∉ (setParent (setParent st l (.ref t)) r (.ref t)).readonlyNameTable := by
      simpa [readonly_setParent] using hRO
    have hop : "=".dropRight 1 = "" := rfl
    simp [Evaluator, caseAssign, validateAssignment, validateOne, hT, hgl,
      hRO', h1, h2, hop, isNumberO, isStringO, isTensorO, binOpTags,
      asgOpTags, Except.map, assignTargets, retSelector, evalReduce]
  · intro x y
    exact ⟨rfl, rfl⟩

end MathJSLab

namespace MathJSLab

/-- Intermediate state of the C3 witness after the failing try around the
right side (the NAME case fails without mutating). -/
def c3s1 : St := setParent (setParent (c3St "x" "y") 0 (.ref 2)) 1 (.ref 2)

/-- Intermediate state of the C3 witness before the per-target evaluation
of the right side. -/
def c3s2 : St :=
  setParent (nodeListFirst (nodeReturnList c3s1 1).2 none).2 1 (.ref 1)

/-- Witness for C3: `x = y` with `y` unbound stores `x` with the
unevaluated right-hand node (reference 1) and re-raises the undefined
error. -/
theorem C3_failedassign_wit :
    Evaluator 2 (c3St "x" "y") 2 false "" =
      ({ c3s2 with nameTable := recSet c3s2.nameTable "x" { args := [], expr := 1 } },
        .error (.evalErr "y undefined.")) :=
  C3_failedassign_thm.1 1 (c3St "x" "y") c3s1 c3s2 2 0 1 "x" "" .undef .undef
    none none false (.evalErr "y undefined.") (.evalErr "y undefined.")
    (by decide) (by decide) (by decide) (by decide) (by decide) (by decide)
    (by decide)

end MathJSLab

namespace MathJSLab
/-- Program `f(x) = x` with `x` unbound: heap nodes NAME f, NAME x
(subscript), ARG f(x), NAME x (body), and the assignment node. -/
def c2FnSt : St :=
  { heap := [ { tag := .s "NAME", id := "f" },
              { tag := .s "NAME", id := "x" },
              { tag := .s "ARG", exprF := some 0, argsF := [1] },
              { tag := .s "NAME", id := "x" },
              { tag := .s "=", left := some 2, right := some 3 } ] }

/-- Program `g(x) = 9` with `g` bound to a 1x2 tensor `[10 20]` and `x`
bound to `2`: the same syntactic shape as a function definition, but the
subscript NAME is bound, so the assignment is an indexed write. -/
def c2IxSt : St :=
  { heap := [ mkNum (.int 10), mkNum (.int 20),
              { tag := .n 1, ocls := .mat, dim := [1, 2], array := [[0, 1]], cls := 1 },
              mkNum (.int 2),
              { tag := .s "NAME", id := "g" },
              { tag := .s "NAME", id := "x" },
              { tag := .s "ARG", exprF := some 4, argsF := [5] },
              mkNum (.int 9),
              { tag := .s "=", left := some 6, right := some 7 } ],
    nameTable := [("g", { args := [], expr := 2 }), ("x", { args := [], expr := 3 })] }

/-- One-node state (`NAME x`, unbound) used to instantiate the general
function-definition branch equation. -/
def c2WSt : St :=
  { heap := [ { tag := .s "NAME", id := "x" } ] }

set_option maxRecDepth 100000 in
/-- C2: in a plain assignment `name(args) = rhs`, the function-definition
branch is taken if and only if every index argument is a bare NAME that is
unbound in the name table (conjunct 2 characterizes the branch condition
`isFunctionTest`); taking it stores parameters plus the unevaluated body
without calling the evaluator at all (conjunct 1, for an arbitrary `ev`);
the end-to-end runs: `f(x) = x` with `x` unbound stores the function entry
(conjunct 3), while `g(x) = 9` with `x` bound to 2 and `g` a 1x2 tensor
`[10 20]` performs an indexed write, leaving `g` a plain variable (entry
with no parameters) now holding `[10 9]` (conjunct 4), with the binding of
`x` untouched (conjunct 5). -/
theorem C2_fndef_thm :
    (∀ (ev : EvalFn) (st : St) (treeRef rhsSrc leftRef : Nat) (id : String) (args : List Nat) (rest : List AsgTarget) (n resultList : Nat) (lcl : Bool) (fname : String) (body : Nat), args ≠ [] → isFunctionTest st args = true → retSelector rhsSrc n = .ok body → assignTargets ev st treeRef "" rhsSrc ({ left := some leftRef, id := id, args := args } :: rest) n resultList lcl fname = assignTargets ev (nodeList { st with nameTable := recSet st.nameTable id { args := args, expr := body } } resultList treeRef) treeRef "" rhsSrc rest (n + 1) resultList lcl fname) ∧
    (∀ (st : St) (args : List Nat), isFunctionTest st args = true ↔ ∀ a ∈ args, (hGet st a).tag = TTag.s "NAME" ∧ recFind st.nameTable (hGet st a).id = none) ∧
    (recFind (Evaluator 3 c2FnSt 4 false "").1.nameTable "f" = some { args := [1], expr := 3 }) ∧
    ((recFind (Evaluator 4 c2IxSt 8 false "").1.nameTable "g").map (fun en => (en.args, ((Evaluator 4 c2IxSt 8 false "").1.heap.getD en.expr {}).array.map (fun row => row.map (fun c => ((Evaluator 4 c2IxSt 8 false "").1.heap.getD c {}).re)))) = some ([], [[.int 10, .int 9]])) ∧
    (recFind (Evaluator 4 c2IxSt 8 false "").1.nameTable "x" = some { args := [], expr := 3 }) := by
  refine ⟨?_, ?_, ?_, ?_, ?_⟩
  · intro ev st treeRef rhsSrc leftRef id args rest n resultList lcl fname body h1 h2 h3
    simp [assignTargets, h1, h2, h3]
  · intro st args
    simp [isFunctionTest, List.all_eq_true, Bool.and_eq_true, decide_eq_true_eq,
      Option.isNone_iff_eq_none]
  · decide
  · decide
  · decide

/-- Witness for C2: the function-definition branch equation instantiated at
a concrete one-node state. -/
theorem C2_fndef_wit :
    assignTargets (Evaluator 0) c2WSt 5 "" 3 [{ left := some 9, id := "f", args := [0] }] 0 4 false "" = assignTargets (Evaluator 0) (nodeList { c2WSt with nameTable := recSet c2WSt.nameTable "f" { args := [0], expr := 3 } } 4 5) 5 "" 3 [] 1 4 false "" :=
  C2_fndef_thm.1 (Evaluator 0) c2WSt 5 3 9 "f" [0] [] 0 4 false "" 3
    (by decide) (by decide) (by decide)

end MathJSLab

namespace MathJSLab

/-- Statement list holding one NAME `t` bound to a 1x2 logical MultiArray
`[1 0]` (grid of references to the two scalar objects). -/
def c8TSt : St :=
  { heap := [ mkNum (.int 1), mkNum (.int 0),
              { tag := .n 0, ocls := .mat, dim := [1, 2], array := [[0, 1]], cls := 0 },
              { tag := .s "NAME", id := "t" },
              { tag := .s "LIST", listF := [3] } ],
    nameTable := [("t", { args := [], expr := 2 })] }

/-- Statement list of two number literals `7, 5`. -/
def c8NSt : St :=
  { heap := [ mkNum (.int 7), mkNum (.int 5),
              { tag := .s "LIST", listF := [0, 1] } ] }

/-- Statement list of the single assignment `x = 5`. -/
def c8ASt : St :=
  { heap := [ { tag := .s "NAME", id := "x" }, mkNum (.int 5),
              { tag := .s "=", left := some 0, right := some 1 },
              { tag := .s "LIST", listF := [2] } ] }

/-- One number literal inside a list node, used to instantiate the general
last-result update step. -/
def c8WSt : St :=
  { heap := [ mkNum (.int 7), { tag := .s "LIST", listF := [0] } ] }

set_option maxRecDepth 100000 in
/-- C8, counterexample: evaluating the statement list `t` where `t` is
bound to a 1x2 logical MultiArray updates the implicit `ans` binding with
that tensor - a result that is not a bare Numeric scalar - because the
update guard of the LIST case (`typeof result.type === 'number'`) also
holds for MultiArray values, whose `type` is a numeric class code
(evaluator.ts line 1028 relies on exactly that). -/
theorem C8_list_cex :
    ((recFind (Evaluate c8TSt 4 4).1.nameTable "ans").map
      (fun en => (isTensorO ((Evaluate c8TSt 4 4).1.heap.getD en.expr {}),
        ((Evaluate c8TSt 4 4).1.heap.getD en.expr {}).dim))) =
      some (true, [1, 2]) := by decide

set_option maxRecDepth 100000 in
/-- C8, amended: LIST children are reduced in order, and after each child
the implicit `ans` binding is updated exactly when the child's result
carries a numeric type tag - which holds for scalars and for MultiArray
tensors alike, not only for bare Numeric scalars.  Conjunct 1: a child
whose result has a numeric tag rewrites `ans` to that result; conjunct 2:
a child whose result has a non-numeric tag leaves the state as it is after
appending the result; conjunct 3: after the two-number list `7, 5` the
binding holds the later value 5 (in-order update); conjunct 4: a root-list
assignment child `x = 5` yields the assignment display node, which is not
numeric-tagged, so `ans` stays unset while `x` is bound; conjunct 5: the
tensor run of the counterexample leaves `t` itself untouched. -/
theorem C8_list_thm :
    (∀ (ev : EvalFn) (st : St) (c resultRef i : Nat) (lcl : Bool) (fname : String) (st2 st3 : St) (v : Nat), ¬((hGet st c).tag = TTag.s "NAME" ∧ localLookup st lcl fname (hGet st c).id = none ∧ recFind st.nameTable (hGet st c).id = none ∧ (hGet st c).id ∈ st.commandsT) → evalReduce ev (setIdx (setParent st c (.ref resultRef)) c i) c lcl fname = (st2, .ok v) → st3 = hMod st2 resultRef (fun o => { o with listF := o.listF ++ [v] }) → isNumTag (hGet st3 v).tag = true → evalListItems ev st [c] resultRef i lcl fname = ({ st3 with nameTable := recSet st3.nameTable "ans" { args := [], expr := v } }, .ok ())) ∧
    (∀ (ev : EvalFn) (st : St) (c resultRef i : Nat) (lcl : Bool) (fname : String) (st2 st3 : St) (v : Nat), ¬((hGet st c).tag = TTag.s "NAME" ∧ localLookup st lcl fname (hGet st c).id = none ∧ recFind st.nameTable (hGet st c).id = none ∧ (hGet st c).id ∈ st.commandsT) → evalReduce ev (setIdx (setParent st c (.ref resultRef)) c i) c lcl fname = (st2, .ok v) → st3 = hMod st2 resultRef (fun o => { o with listF := o.listF ++ [v] }) → isNumTag (hGet st3 v).tag = false → evalListItems ev st [c] resultRef i lcl fname = (st3, .ok ())) ∧
    ((recFind (Evaluate c8NSt 2 3).1.nameTable "ans").map (fun en => ((Evaluate c8NSt 2 3).1.heap.getD en.expr {}).re) = some (.int 5)) ∧
    (recFind (Evaluate c8ASt 3 4).1.nameTable "ans" = none ∧ recFind (Evaluate c8ASt 3 4).1.nameTable "x" = some { args := [], expr := 1 }) ∧
    ((recFind (Evaluate c8TSt 4 4).1.nameTable "t").map (fun en => en.expr) = some 2) := by
  refine ⟨?_, ?_, ?_, ?_, ?_⟩
  · intro ev st c resultRef i lcl fname st2 st3 v hguard heval hst3 hnum
    subst hst3
    simp [evalListItems, hguard, heval, hnum]
  · intro ev st c resultRef i lcl fname st2 st3 v hguard heval hst3 hnum
    subst hst3
    simp [evalListItems, hguard, heval, hnum]
  · decide
  · decide
  · decide

/-- Witness for C8: the numeric-update step instantiated at a concrete
one-literal list. -/
theorem C8_list_wit :
    evalListItems (Evaluator 1) c8WSt [0] 1 0 false "" = ({ hMod (setIdx (setParent c8WSt 0 (.ref 1)) 0 0) 1 (fun o => { o with listF := o.listF ++ [0] }) with nameTable := recSet (hMod (setIdx (setParent c8WSt 0 (.ref 1)) 0 0) 1 (fun o => { o with listF := o.listF ++ [0] })).nameTable "ans" { args := [], expr := 0 } }, .ok ()) :=
  C8_list_thm.1 (Evaluator 1) c8WSt 0 1 0 false ""
    (setIdx (setParent c8WSt 0 (.ref 1)) 0 0)
    (hMod (setIdx (setParent c8WSt 0 (.ref 1)) 0 0) 1 (fun o => { o with listF := o.listF ++ [0] })) 0
    (by decide) (by decide) rfl (by decide)

end MathJSLab

namespace MathJSLab

/-- Column-major element grid of the 2x3 tensor `A = [1 3 5; 2 4 6]`. -/
def c1Grid : List (List Obj) :=
  [[mkNum (.int 1), mkNum (.int 3), mkNum (.int 5)],
   [mkNum (.int 2), mkNum (.int 4), mkNum (.int 6)]]

/-- Program `A(2,end)` with `A` the 2x3 tensor above, built with the node
builders exactly as the parser links subscripts. -/
def c1Setup : St × Nat :=
  let st0 : St := {}
  let (aRef, st1) := allocTensor st0 [2, 3] c1Grid numberClassReal
  let (n2, st2) := nodeNumber st1 (.int 2)
  let (ne, st3) := nodeReserved st2 "ENDRANGE"
  let (al, st4) := nodeListFirst st3 (some n2)
  let st5 := nodeList st4 al ne
  let (na, st6) := nodeName st5 "A"
  let (argE, st7) := nodeArgExpr st6 na (some al)
  let (stmt, st8) := nodeListFirst st7 (some argE)
  ({ st8 with nameTable := [("A", { args := [], expr := aRef })] }, stmt)

/-- The full evaluator run of `A(2,end)`. -/
def c1Run : St × Except Err Nat := Evaluate c1Setup.1 c1Setup.2 8

/-- Real part of the i-th item of a run that returned a list node. -/
def listItemRe (p : St × Except Err Nat) (i : Nat) : Option Decim :=
  match p.2 with
  | .ok r =>
    match (hGet p.1 r).listF.get? i with
    | some v => some (hGet p.1 v).re
    | none => none
  | .error _ => none

/-- Minimal indexing context (a 2x3 tensor bound to `A` and an ARG node
sitting at statement index 0) used to instantiate the dimension-selection
step. -/
def c1WSt : St :=
  { heap := [ { tag := .n 1, ocls := .mat, dim := [2, 3], cls := 1 },
              { tag := .s "NAME", id := "A" },
              { tag := .s "ARG", exprF := some 1, argsF := [3, 3], idx := some 0 } ],
    nameTable := [("A", { args := [], expr := 0 })] }

/-- An ENDRANGE node whose direct parent is the ARG node of `c1WSt`. -/
def c1WObj : Obj := { tag := .s "ENDRANGE", parent := .ref 2 }

set_option maxRecDepth 40000 in
/-- C1, counterexample: for the 2x3 tensor `A = [1 3 5; 2 4 6]`, the claim
predicts that in `A(2,end)` the `end` resolves to the size of the second
dimension (3 columns, since `end` sits at subscript position 1), so the
result would be `A(2,3) = 6`; the evaluator instead reads
`tree.parent.index` - the statement-list index 0 of the enclosing ARG node
itself - so `end` becomes `getDimension(A, 0) = 2` rows and the run yields
`A(2,2) = 4`. -/
theorem C1_end_cex : listItemRe c1Run 0 = some (.int 4) := by decide

/-- C1, amended: conjunct 1: in a multi-subscript context, `end` yields
the size of the dimension selected by the direct parent's `index`
property (`tree.parent.index`), not by the position of `end` among the
subscripts; conjunct 2: with exactly one subscript it yields the linear
length; conjunct 3: the ENDRANGE walk stops at the nearest node tagged
ARG and skips every non-ARG level, without inspecting the callee while
walking; conjunct 4: a chain that reaches the root without meeting an ARG
fails with the SyntaxError-class indeterminate-end error; conjunct 5: if
the nearest ARG's callee is bound to a function (non-empty parameter
list), the evaluation fails with the same error rather than walking
further; conjunct 6: the ':' case, unlike ENDRANGE, does not walk at all -
whenever the direct parent is not an ARG node it fails with the
indeterminate-colon error, whatever lies higher in the chain. -/
theorem C1_end_thm :
    (∀ (st : St) (wfuel : Nat) (o : Obj) (pp p ex ix : Nat) (en : NTEntry), o.parent = JRef.ref pp → walkParent st wfuel (.ref pp) = .ok (.ref p) → (hGet st p).exprF = some ex → recFind st.nameTable (hGet st ex).id = some en → en.args = [] → isTensorO (hGet st en.expr) = true → (hGet st p).argsF.length ≠ 1 → (hGet st pp).idx = some ix → caseEndRange st wfuel o = ((halloc st (mkNum (.int (getDimension (hGet st en.expr) ix)))).2, .ok (halloc st (mkNum (.int (getDimension (hGet st en.expr) ix)))).1)) ∧
    (∀ (st : St) (wfuel : Nat) (o : Obj) (pp p ex : Nat) (en : NTEntry), o.parent = JRef.ref pp → walkParent st wfuel (.ref pp) = .ok (.ref p) → (hGet st p).exprF = some ex → recFind st.nameTable (hGet st ex).id = some en → en.args = [] → isTensorO (hGet st en.expr) = true → (hGet st p).argsF.length = 1 → caseEndRange st wfuel o = ((halloc st (mkNum (.int (linearLength (hGet st en.expr))))).2, .ok (halloc st (mkNum (.int (linearLength (hGet st en.expr))))).1)) ∧
    (∀ (st : St) (k i : Nat), ((hGet st i).tag = TTag.s "ARG" → walkParent st (k + 1) (.ref i) = .ok (.ref i)) ∧ ((hGet st i).tag ≠ TTag.s "ARG" → walkParent st (k + 1) (.ref i) = walkParent st k (hGet st i).parent)) ∧
    (∀ (st : St) (wfuel : Nat) (o : Obj), walkParent st wfuel o.parent = .ok .jnull → caseEndRange st wfuel o = (st, .error (.syntaxErr "indeterminate end of range. The word end to refer a value is valid only in indexing."))) ∧
    (∀ (st : St) (wfuel : Nat) (o : Obj) (pp p ex : Nat) (en : NTEntry), o.parent = JRef.ref pp → walkParent st wfuel (.ref pp) = .ok (.ref p) → (hGet st p).exprF = some ex → recFind st.nameTable (hGet st ex).id = some en → en.args ≠ [] → caseEndRange st wfuel o = (st, .error (.syntaxErr "indeterminate end of range. The word end to refer a value is valid only in indexing."))) ∧
    (∀ (st : St) (o : Obj) (p : Nat), o.parent = JRef.ref p → (hGet st p).tag ≠ TTag.s "ARG" → caseColon st o = (st, .error (.syntaxErr "indeterminate colon. The colon to refer a range is valid only in indexing."))) := by
  refine ⟨?_, ?_, ?_, ?_, ?_, ?_⟩
  · intro st wfuel o pp p ex ix en hpp hwalk hex hrec hargs htens harity hix
    simp [caseEndRange, hpp, hwalk, hex, hrec, hargs, htens, harity, hix]
  · intro st wfuel o pp p ex en hpp hwalk hex hrec hargs htens harity
    simp [caseEndRange, hpp, hwalk, hex, hrec, hargs, htens, harity]
  · intro st k i
    constructor
    · intro h
      simp [walkParent, h]
    · intro h
      simp [walkParent, h]
  · intro st wfuel o hwalk
    simp [caseEndRange, hwalk]
  · intro st wfuel o pp p ex en hpp hwalk hex hrec hargs
    simp [caseEndRange, hpp, hwalk, hex, hrec, hargs]
  · intro st o p hp htag
    simp [caseColon, hp, htag]

/-- Witness for C1: the dimension-selection step instantiated at the
minimal indexing context (`getDimension` of the 2x3 tensor at the parent's
index 0 is 2). -/
theorem C1_end_wit :
    caseEndRange c1WSt 1 c1WObj = ((halloc c1WSt (mkNum (.int 2))).2, .ok (halloc c1WSt (mkNum (.int 2))).1) :=
  C1_end_thm.1 c1WSt 1 c1WObj 2 2 1 0 { args := [], expr := 0 }
    rfl (by decide) rfl (by decide) rfl (by decide) (by decide) rfl

end MathJSLab
